import Mathlib

/-!
Shallow embedding of the lb_buffer serialization toolkit
(src/include/lb_reader.h, src/include/lb_writer.h, src/include/lb_paged_arena.h).

Modelling conventions:
* `size_t` arithmetic is `Nat` reduced modulo `2 ^ 64` (`U64MOD`) exactly where the
  C code performs `size_t` additions (`position + length`, `position += length`,
  `page->length + size`).
* A byte region (`const void *data` plus its pointed-to memory) is an
  `Option (List Nat)`: `none` is a NULL pointer, each list element one byte.
* A `FILE *` store is `Option LB_File`: a byte list plus the stream position.
  Every `fread`/`fwrite` backend call is recorded in a call trace — the list of
  the byte counts moved by the individual store calls — so that "one full-span
  call" versus "byte-at-a-time" is observable.
* Scalar values handed to the normalized accessors are exact rationals; the C
  cast from floating point to an integer type truncates toward zero (`ctrunc`).
  The `quant...`/`lbReadNU...` definitions evaluate the scale/divide steps in
  exact rational arithmetic — the idealized quantization algorithm. The IEEE
  binary64 rounding that the C width-64 normalized path actually performs is
  modelled separately (`Rep53`, `RoundNE53`, `NU64QuantIEEE`, `NU64ReadIEEE`)
  and refutes the error bound there.
* The source's `lb...Unsafe` entry points are rendered here with the suffix
  `Unchecked` (same behaviour, no safety check).
* Error codes are the source's bit flags, OR-combined with `|||` as in C.
-/

def U64MOD : Nat := 2 ^ 64

/-- `LB_ReaderError` flag: the reader is at the end (`0x1`). -/
def LB_READER_ERROR_END : Nat := 1

/-- `LB_ReaderError` flag: the reader is NULL (`0x2`). -/
def LB_READER_ERROR_READER_NULL : Nat := 2

/-- `LB_ReaderError` flag: the data is NULL (`0x4`). -/
def LB_READER_ERROR_DATA_NULL : Nat := 4

/-- `LB_ReaderError` flag: the value is invalid (`0x8`). -/
def LB_READER_ERROR_INVALID_VALUE : Nat := 8

/-- `LB_WriterError` flag: the writer is full (`0x1`). -/
def LB_WRITER_ERROR_FULL : Nat := 1

/-- `LB_WriterError` flag: the writer is NULL (`0x2`). -/
def LB_WRITER_ERROR_WRITER_NULL : Nat := 2

/-- `LB_WriterError` flag: the data is NULL (`0x4`). -/
def LB_WRITER_ERROR_DATA_NULL : Nat := 4

/-- `LB_WriterError` flag: the value is invalid (`0x8`). -/
def LB_WRITER_ERROR_INVALID_VALUE : Nat := 8

/-- Model of a `FILE *` byte store: content plus current stream position. -/
structure LB_File where
  content : List Nat
  pos : Nat
deriving DecidableEq

/-- `LB_ReaderBuffer`: `data` pointer (with its pointed-to bytes), declared
`length`, and cursor `position`. -/
structure LB_ReaderBuffer where
  data : Option (List Nat)
  length : Nat
  position : Nat
deriving DecidableEq

/-- `LB_Reader`: tagged union over the buffer backend and the file backend. -/
inductive LB_Reader where
  | buffer (b : LB_ReaderBuffer)
  | file (f : Option LB_File)
deriving DecidableEq

/-- `LB_WriterBuffer`: `data` pointer (with its pointed-to bytes), declared
`length`, and cursor `position`. -/
structure LB_WriterBuffer where
  data : Option (List Nat)
  length : Nat
  position : Nat
deriving DecidableEq

/-- `LB_Writer`: tagged union over the buffer backend and the file backend. -/
inductive LB_Writer where
  | buffer (b : LB_WriterBuffer)
  | file (f : Option LB_File)
deriving DecidableEq

/-- Model of `fread(out, n, 1, file)`: returns the bytes read, the number of
complete items read (1 on success, 0 on a short read), and the advanced store. -/
def fread (f : LB_File) (n : Nat) : List Nat × Nat × LB_File :=
  if f.pos + n ≤ f.content.length then
    ((f.content.drop f.pos).take n, 1, { f with pos := f.pos + n })
  else
    (f.content.drop f.pos, 0, { f with pos := f.content.length })

/-- Model of `fwrite(src, n, 1, file)`: overwrites (zero-filling any gap,
extending at the end) at the current position, advances it, returns 1 item. -/
def fwrite (f : LB_File) (bytes : List Nat) : Nat × LB_File :=
  (1,
   { content := f.content.take f.pos ++
       List.replicate (f.pos - f.content.length) 0 ++
       bytes ++ f.content.drop (f.pos + bytes.length)
     pos := f.pos + bytes.length })

/-- Result of a raw read: error flags, bytes delivered to `out_value`, the
updated reader, and the trace of backend (`fread`) call sizes. -/
structure ReadResult where
  error : Nat
  bytes : List Nat
  reader : LB_Reader
  calls : List Nat
deriving DecidableEq

/-- Result of a raw write: error flags, the updated writer, and the trace of
backend (`fwrite`) call sizes. -/
structure WriteResult where
  error : Nat
  writer : LB_Writer
  calls : List Nat
deriving DecidableEq

/-- `lbReaderCheckSafety(reader, out_value, length)`. The `out_value_null` flag
models whether the caller's out pointer is NULL. -/
def lbReaderCheckSafety (reader : Option LB_Reader) (out_value_null : Bool)
    (length : Nat) : Nat :=
  (match reader with
    | none => LB_READER_ERROR_READER_NULL
    | some (.buffer b) =>
        (if (b.position + length) % U64MOD > b.length then LB_READER_ERROR_END else 0) |||
        (if b.data = none then LB_READER_ERROR_DATA_NULL else 0)
    | some (.file f) =>
        if f = none then LB_READER_ERROR_DATA_NULL else 0) |||
  (if out_value_null then LB_READER_ERROR_INVALID_VALUE else 0)

/-- `lbWriterCheckSafety(writer, value, length)`. The `value_null` flag models
whether the caller's value pointer is NULL. -/
def lbWriterCheckSafety (writer : Option LB_Writer) (value_null : Bool)
    (length : Nat) : Nat :=
  (match writer with
    | none => LB_WRITER_ERROR_WRITER_NULL
    | some (.buffer b) =>
        (if (b.position + length) % U64MOD > b.length then LB_WRITER_ERROR_FULL else 0) |||
        (if b.data = none then LB_WRITER_ERROR_DATA_NULL else 0)
    | some (.file f) =>
        if f = none then LB_WRITER_ERROR_DATA_NULL else 0) |||
  (if value_null then LB_WRITER_ERROR_INVALID_VALUE else 0)

/-- `memcpy(data + pos, vs, vs.length)` on a byte region: splice `vs` into `d`
at offset `pos` (within bounds this keeps the region length unchanged). -/
def bufferWriteBytes (d : List Nat) (pos : Nat) (vs : List Nat) : List Nat :=
  d.take pos ++ vs ++ d.drop (pos + vs.length)

/-- `lbReadUnsafe`: buffer mode copies `length` bytes from `data + position`
and advances `position`; file mode is one `fread` of the full span. -/
def lbReadUnchecked (reader : LB_Reader) (length : Nat) : ReadResult :=
  match reader with
  | .buffer b =>
      { error := 0
        bytes := ((b.data.getD []).drop b.position).take length
        reader := .buffer { b with position := (b.position + length) % U64MOD }
        calls := [] }
  | .file none =>
      -- fread through a NULL handle is undefined behaviour in C; the checked
      -- entry points never reach this case.
      { error := LB_READER_ERROR_END, bytes := [], reader := .file none, calls := [] }
  | .file (some f) =>
      let r := fread f length
      { error := if r.2.1 ≠ 1 then LB_READER_ERROR_END else 0
        bytes := r.1
        reader := .file (some r.2.2)
        calls := [length] }

/-- `lbRead`: runs `lbReaderCheckSafety` first and propagates a non-zero error
without touching the cursor, else performs the raw read. -/
def lbRead (reader : LB_Reader) (out_value_null : Bool) (length : Nat) : ReadResult :=
  let e := lbReaderCheckSafety (some reader) out_value_null length
  if e ≠ 0 then { error := e, bytes := [], reader := reader, calls := [] }
  else lbReadUnchecked reader length

/-- `lbReadReversedUnsafe`: buffer mode stores byte `i` of the region segment
into byte `length - 1 - i` of the output; file mode does one full-span `fread`
and reverses the scratch buffer in place. -/
def lbReadReversedUnchecked (reader : LB_Reader) (length : Nat) : ReadResult :=
  match reader with
  | .buffer b =>
      { error := 0
        bytes := (((b.data.getD []).drop b.position).take length).reverse
        reader := .buffer { b with position := (b.position + length) % U64MOD }
        calls := [] }
  | .file none =>
      { error := LB_READER_ERROR_END, bytes := [], reader := .file none, calls := [] }
  | .file (some f) =>
      let r := fread f length
      if r.2.1 ≠ 1 then
        { error := LB_READER_ERROR_END, bytes := r.1, reader := .file (some r.2.2),
          calls := [length] }
      else
        { error := 0, bytes := r.1.reverse, reader := .file (some r.2.2),
          calls := [length] }

/-- `lbReadReversed`: checked form of the reversed read. -/
def lbReadReversed (reader : LB_Reader) (out_value_null : Bool) (length : Nat) :
    ReadResult :=
  let e := lbReaderCheckSafety (some reader) out_value_null length
  if e ≠ 0 then { error := e, bytes := [], reader := reader, calls := [] }
  else lbReadReversedUnchecked reader length

/-- `lbWriteUnsafe`: buffer mode is `memcpy` at `position` then
`position += length`; file mode is one `fwrite` of the full span. -/
def lbWriteUnchecked (writer : LB_Writer) (value : List Nat) : WriteResult :=
  match writer with
  | .buffer b =>
      { error := 0
        writer := .buffer
          { b with
            data := some (bufferWriteBytes (b.data.getD []) b.position value)
            position := (b.position + value.length) % U64MOD }
        calls := [] }
  | .file none =>
      -- fwrite through a NULL handle is undefined behaviour in C; the checked
      -- entry points never reach this case.
      { error := LB_WRITER_ERROR_FULL, writer := .file none, calls := [] }
  | .file (some f) =>
      let r := fwrite f value
      { error := if r.1 ≠ 1 then LB_WRITER_ERROR_FULL else 0
        writer := .file (some r.2)
        calls := [value.length] }

/-- `lbWrite`: runs `lbWriterCheckSafety` first and propagates a non-zero error
without touching the cursor, else performs the raw write. -/
def lbWrite (writer : LB_Writer) (value_null : Bool) (value : List Nat) : WriteResult :=
  let e := lbWriterCheckSafety (some writer) value_null value.length
  if e ≠ 0 then { error := e, writer := writer, calls := [] }
  else lbWriteUnchecked writer value

/-- The file branch of `lbWriteReversedUnsafe`: the loop
`for (i = 0; i < length; i++) fwrite(value + length - 1 - i, 1, 1, file)`,
here already fed the reversed byte order. Emits one trace entry per `fwrite`. -/
def lbWriteReversedFileLoop (f : LB_File) (rev : List Nat) : Nat × LB_File × List Nat :=
  match rev with
  | [] => (0, f, [])
  | byte :: rest =>
      let r := fwrite f [byte]
      if r.1 ≠ 1 then (LB_WRITER_ERROR_FULL, r.2, [1])
      else
        let s := lbWriteReversedFileLoop r.2 rest
        (s.1, s.2.1, 1 :: s.2.2)

/-- `lbWriteReversedUnsafe`: buffer mode stores byte `length - 1 - i` of the
value at region offset `position + i`; file mode writes the span one byte at a
time against the store (each byte a separate `fwrite`). -/
def lbWriteReversedUnchecked (writer : LB_Writer) (value : List Nat) : WriteResult :=
  match writer with
  | .buffer b =>
      { error := 0
        writer := .buffer
          { b with
            data := some (bufferWriteBytes (b.data.getD []) b.position value.reverse)
            position := (b.position + value.length) % U64MOD }
        calls := [] }
  | .file none =>
      { error := LB_WRITER_ERROR_FULL, writer := .file none, calls := [] }
  | .file (some f) =>
      let r := lbWriteReversedFileLoop f value.reverse
      { error := r.1, writer := .file (some r.2.1), calls := r.2.2 }

/-- `lbWriteReversed`: checked form of the reversed write. -/
def lbWriteReversed (writer : LB_Writer) (value_null : Bool) (value : List Nat) :
    WriteResult :=
  let e := lbWriterCheckSafety (some writer) value_null value.length
  if e ≠ 0 then { error := e, writer := writer, calls := [] }
  else lbWriteReversedUnchecked writer value

/-- `lbReaderSeek`: buffer mode fails with `LB_READER_ERROR_END` when
`position >= length`, else sets the cursor; file mode delegates to `fseek`
(which succeeds in this model whenever the handle is present). -/
def lbReaderSeek (reader : LB_Reader) (position : Nat) : Nat × LB_Reader :=
  match reader with
  | .buffer b =>
      if position ≥ b.length then (LB_READER_ERROR_END, .buffer b)
      else (0, .buffer { b with position := position })
  | .file none => (LB_READER_ERROR_END, .file none)
  | .file (some f) => (0, .file (some { f with pos := position }))

/-- `lbWriterSeek`: buffer mode fails with `LB_WRITER_ERROR_FULL` when
`position >= length`, else sets the cursor; file mode delegates to `fseek`. -/
def lbWriterSeek (writer : LB_Writer) (position : Nat) : Nat × LB_Writer :=
  match writer with
  | .buffer b =>
      if position ≥ b.length then (LB_WRITER_ERROR_FULL, .buffer b)
      else (0, .buffer { b with position := position })
  | .file none => (LB_WRITER_ERROR_FULL, .file none)
  | .file (some f) => (0, .file (some { f with pos := position }))

/-- `lbReaderInitBuffer(reader, data, length)`: `LB_ReaderInitError` flags
`NO_READER = 0x4`, `DATA_NULL = 0x1`, `LENGTH_ZERO = 0x8`; on success the
reader is buffer mode with `position = 0`. -/
def lbReaderInitBuffer (reader_null : Bool) (data : Option (List Nat))
    (length : Nat) : Nat × Option LB_Reader :=
  let e := ((if reader_null then 4 else 0) |||
            (if data = none then 1 else 0)) |||
           (if length = 0 then 8 else 0)
  if e ≠ 0 then (e, none)
  else (0, some (.buffer { data := data, length := length, position := 0 }))

/-- `lbWriterInitBuffer(writer, data, length)`: `LB_WriterInitError` flags
`NO_WRITER = 0x2`, `DATA_NULL = 0x1`, `LENGTH_ZERO = 0x8`; on success the
writer is buffer mode with `position = 0`. -/
def lbWriterInitBuffer (writer_null : Bool) (data : Option (List Nat))
    (length : Nat) : Nat × Option LB_Writer :=
  let e := ((if writer_null then 2 else 0) |||
            (if data = none then 1 else 0)) |||
           (if length = 0 then 8 else 0)
  if e ≠ 0 then (e, none)
  else (0, some (.buffer { data := data, length := length, position := 0 }))

/-!
Typed accessors. On a little-endian host (the byte-order branch the source's
`__BYTE_ORDER__ == __ORDER_LITTLE_ENDIAN__` macros select), the in-memory
representation of a `w`-bit unsigned integer is its little-endian byte list,
`lbWriteLE`/`lbReadLE` are the forward transfers and `lbWriteBE`/`lbReadBE`
the reversed transfers.
-/

/-- Little-endian byte representation of a value: `size` bytes, low byte first. -/
def natToLE : Nat → Nat → List Nat
  | 0, _ => []
  | n + 1, v => v % 256 :: natToLE n (v / 256)

/-- Value of a little-endian byte list. -/
def leToNat : List Nat → Nat
  | [] => 0
  | b :: rest => b + 256 * leToNat rest

/-- `lbWriteU32(writer, value)`: forward transfer of the 4-byte representation. -/
def lbWriteU32 (writer : LB_Writer) (value : Nat) : WriteResult :=
  lbWrite writer false (natToLE 4 (value % 2 ^ 32))

/-- `lbWriteU32BE(writer, value)` on a little-endian host: reversed transfer. -/
def lbWriteU32BE (writer : LB_Writer) (value : Nat) : WriteResult :=
  lbWriteReversed writer false (natToLE 4 (value % 2 ^ 32))

/-- `lbReadU32(reader, &err)`: forward transfer, returns (error, value, reader). -/
def lbReadU32 (reader : LB_Reader) : Nat × Nat × LB_Reader :=
  let r := lbRead reader false 4
  (r.error, leToNat r.bytes, r.reader)

/-- `lbReadU32BE(reader, &err)` on a little-endian host: reversed transfer. -/
def lbReadU32BE (reader : LB_Reader) : Nat × Nat × LB_Reader :=
  let r := lbReadReversed reader false 4
  (r.error, leToNat r.bytes, r.reader)

/-- `lbReadU8(reader, &err)`. -/
def lbReadU8 (reader : LB_Reader) : Nat × Nat × LB_Reader :=
  let r := lbRead reader false 1
  (r.error, leToNat r.bytes, r.reader)

/-- `lbReadU16(reader, &err)`: forward transfer of 2 bytes. -/
def lbReadU16 (reader : LB_Reader) : Nat × Nat × LB_Reader :=
  let r := lbRead reader false 2
  (r.error, leToNat r.bytes, r.reader)

/-- `lbReadU16BE(reader, &err)` on a little-endian host: reversed transfer. -/
def lbReadU16BE (reader : LB_Reader) : Nat × Nat × LB_Reader :=
  let r := lbReadReversed reader false 2
  (r.error, leToNat r.bytes, r.reader)

/-!
Normalized accessors. The C scale step `(uintN_t)(value * MAX + 0.5f)` /
`(intN_t)(value * MAX + 0.5f)` is modelled here in exact rational arithmetic
with the C float-to-integer cast truncating toward zero: this is the idealized
quantization algorithm, without the IEEE float/double rounding of the scale
and divide steps (that rounding is modelled separately for the width-64
counterexample below). The per-width functions (`lbWriteNU8` … `lbWriteNI64`,
`lbReadNU8` …) share one generic body, exactly as the source shares the
`LB_WRITER_NORMALIZED_*_SAFETY` macros; note that the safety macro passes the
access length `1` for every width.
-/

/-- C float-to-integer cast: truncation toward zero. -/
def ctrunc (q : ℚ) : Int := if 0 ≤ q then ⌊q⌋ else -⌊-q⌋

/-- `(uintN_t)(value * MAX + 0.5)` for `MAX = 2 ^ w - 1`, with the scale and
add evaluated exactly (idealized; no IEEE intermediate rounding). -/
def quantUnsigned (value : ℚ) (max : Nat) : Nat :=
  (ctrunc (value * max + 1 / 2)).toNat

/-- `(intN_t)(value * MAX + 0.5)` for `MAX = 2 ^ (w - 1) - 1`, with the scale
and add evaluated exactly (idealized; no IEEE intermediate rounding). -/
def quantSigned (value : ℚ) (maxI : Nat) : Int :=
  ctrunc (value * maxI + 1 / 2)

/-- Common body of `lbWriteNU8`/`NU16`/`NU32`/`NU64`: quantize, run
`lbWriterCheckSafety(writer, &normalized, 1)` plus the `[0,1]` domain check,
and on success write the quantized bytes through the raw unchecked write. -/
def lbWriteNUGen (writer : LB_Writer) (value : ℚ) (max size : Nat) :
    Nat × LB_Writer :=
  let normalized := quantUnsigned value max
  let e := lbWriterCheckSafety (some writer) false 1
  let e := if value < 0 ∨ value > 1 then e ||| LB_WRITER_ERROR_INVALID_VALUE else e
  if e ≠ 0 then (e, writer)
  else
    let r := lbWriteUnchecked writer (natToLE size normalized)
    (r.error, r.writer)

/-- Common body of `lbWriteNI8`/`NI16`/`NI32`/`NI64`: quantize, run
`lbWriterCheckSafety(writer, &normalized, 1)` plus the `[-1,1]` domain check,
and on success write the two's-complement bytes of the quantized value. -/
def lbWriteNIGen (writer : LB_Writer) (value : ℚ) (maxI size : Nat) :
    Nat × LB_Writer :=
  let normalized := quantSigned value maxI
  let e := lbWriterCheckSafety (some writer) false 1
  let e := if value < -1 ∨ value > 1 then e ||| LB_WRITER_ERROR_INVALID_VALUE else e
  if e ≠ 0 then (e, writer)
  else
    let r := lbWriteUnchecked writer
      (natToLE size ((normalized % ((2 : Int) ^ (8 * size))).toNat))
    (r.error, r.writer)

/-- `lbWriteNU8(writer, value)`. -/
def lbWriteNU8 (writer : LB_Writer) (value : ℚ) : Nat × LB_Writer :=
  lbWriteNUGen writer value 255 1

/-- `lbWriteNU8LE`: delegates to `lbWriteNU8`. -/
def lbWriteNU8LE (writer : LB_Writer) (value : ℚ) : Nat × LB_Writer :=
  lbWriteNU8 writer value

/-- `lbWriteNU8BE`: delegates to `lbWriteNU8`. -/
def lbWriteNU8BE (writer : LB_Writer) (value : ℚ) : Nat × LB_Writer :=
  lbWriteNU8 writer value

/-- `lbWriteNU16(writer, value)`. -/
def lbWriteNU16 (writer : LB_Writer) (value : ℚ) : Nat × LB_Writer :=
  lbWriteNUGen writer value 65535 2

/-- `lbWriteNU16LE`: delegates to `lbWriteNU16` (byte order ignored). -/
def lbWriteNU16LE (writer : LB_Writer) (value : ℚ) : Nat × LB_Writer :=
  lbWriteNU16 writer value

/-- `lbWriteNU16BE`: delegates to `lbWriteNU16` (byte order ignored). -/
def lbWriteNU16BE (writer : LB_Writer) (value : ℚ) : Nat × LB_Writer :=
  lbWriteNU16 writer value

/-- `lbWriteNU32(writer, value)`. -/
def lbWriteNU32 (writer : LB_Writer) (value : ℚ) : Nat × LB_Writer :=
  lbWriteNUGen writer value 4294967295 4

/-- `lbWriteNU32LE`: delegates to `lbWriteNU32` (byte order ignored). -/
def lbWriteNU32LE (writer : LB_Writer) (value : ℚ) : Nat × LB_Writer :=
  lbWriteNU32 writer value

/-- `lbWriteNU32BE`: delegates to `lbWriteNU32` (byte order ignored). -/
def lbWriteNU32BE (writer : LB_Writer) (value : ℚ) : Nat × LB_Writer :=
  lbWriteNU32 writer value

/-- `lbWriteNU64(writer, value)`. -/
def lbWriteNU64 (writer : LB_Writer) (value : ℚ) : Nat × LB_Writer :=
  lbWriteNUGen writer value 18446744073709551615 8

/-- `lbWriteNU64LE`: delegates to `lbWriteNU64` (byte order ignored). -/
def lbWriteNU64LE (writer : LB_Writer) (value : ℚ) : Nat × LB_Writer :=
  lbWriteNU64 writer value

/-- `lbWriteNU64BE`: delegates to `lbWriteNU64` (byte order ignored). -/
def lbWriteNU64BE (writer : LB_Writer) (value : ℚ) : Nat × LB_Writer :=
  lbWriteNU64 writer value

/-- `lbWriteNI8(writer, value)`. -/
def lbWriteNI8 (writer : LB_Writer) (value : ℚ) : Nat × LB_Writer :=
  lbWriteNIGen writer value 127 1

/-- `lbWriteNI8LE`: delegates to `lbWriteNI8`. -/
def lbWriteNI8LE (writer : LB_Writer) (value : ℚ) : Nat × LB_Writer :=
  lbWriteNI8 writer value

/-- `lbWriteNI8BE`: delegates to `lbWriteNI8`. -/
def lbWriteNI8BE (writer : LB_Writer) (value : ℚ) : Nat × LB_Writer :=
  lbWriteNI8 writer value

/-- `lbWriteNI16(writer, value)`. -/
def lbWriteNI16 (writer : LB_Writer) (value : ℚ) : Nat × LB_Writer :=
  lbWriteNIGen writer value 32767 2

/-- `lbWriteNI16LE`: delegates to `lbWriteNI16` (byte order ignored). -/
def lbWriteNI16LE (writer : LB_Writer) (value : ℚ) : Nat × LB_Writer :=
  lbWriteNI16 writer value

/-- `lbWriteNI16BE`: delegates to `lbWriteNI16` (byte order ignored). -/
def lbWriteNI16BE (writer : LB_Writer) (value : ℚ) : Nat × LB_Writer :=
  lbWriteNI16 writer value

/-- `lbWriteNI32(writer, value)`. -/
def lbWriteNI32 (writer : LB_Writer) (value : ℚ) : Nat × LB_Writer :=
  lbWriteNIGen writer value 2147483647 4

/-- `lbWriteNI32LE`: delegates to `lbWriteNI32` (byte order ignored). -/
def lbWriteNI32LE (writer : LB_Writer) (value : ℚ) : Nat × LB_Writer :=
  lbWriteNI32 writer value

/-- `lbWriteNI32BE`: delegates to `lbWriteNI32` (byte order ignored). -/
def lbWriteNI32BE (writer : LB_Writer) (value : ℚ) : Nat × LB_Writer :=
  lbWriteNI32 writer value

/-- `lbWriteNI64(writer, value)`. -/
def lbWriteNI64 (writer : LB_Writer) (value : ℚ) : Nat × LB_Writer :=
  lbWriteNIGen writer value 9223372036854775807 8

/-- `lbWriteNI64LE`: delegates to `lbWriteNI64` (byte order ignored). -/
def lbWriteNI64LE (writer : LB_Writer) (value : ℚ) : Nat × LB_Writer :=
  lbWriteNI64 writer value

/-- `lbWriteNI64BE`: delegates to `lbWriteNI64` (byte order ignored). -/
def lbWriteNI64BE (writer : LB_Writer) (value : ℚ) : Nat × LB_Writer :=
  lbWriteNI64 writer value

/-- Common body of the native-order unsigned normalized reads
(`lbReadNU8`/`NU16`/`NU32`/`NU64`): plain read, then divide by `MAX` — the
division evaluated exactly (idealized; the C divides by `(float/double)MAX`,
which at width 64 is the rounded `2^64`, with a rounded quotient). -/
def lbReadNUGen (reader : LB_Reader) (max size : Nat) : Nat × ℚ × LB_Reader :=
  let r := lbRead reader false size
  (r.error, (leToNat r.bytes : ℚ) / (max : ℚ), r.reader)

/-- Common body of the big-endian unsigned normalized reads on a little-endian
host (`lbReadNU16BE` etc.): reversed read, then exact division by `MAX`
(idealized, as in `lbReadNUGen`). -/
def lbReadNUGenBE (reader : LB_Reader) (max size : Nat) : Nat × ℚ × LB_Reader :=
  let r := lbReadReversed reader false size
  (r.error, (leToNat r.bytes : ℚ) / (max : ℚ), r.reader)

/-- `lbReadNU8(reader, &err)`. -/
def lbReadNU8 (reader : LB_Reader) : Nat × ℚ × LB_Reader :=
  lbReadNUGen reader 255 1

/-- `lbReadNU16(reader, &err)`. -/
def lbReadNU16 (reader : LB_Reader) : Nat × ℚ × LB_Reader :=
  lbReadNUGen reader 65535 2

/-- `lbReadNU16LE(reader, &err)`: forward transfer on a little-endian host. -/
def lbReadNU16LE (reader : LB_Reader) : Nat × ℚ × LB_Reader :=
  lbReadNUGen reader 65535 2

/-- `lbReadNU16BE(reader, &err)`: reversed transfer on a little-endian host
(the read side applies the requested byte order). -/
def lbReadNU16BE (reader : LB_Reader) : Nat × ℚ × LB_Reader :=
  lbReadNUGenBE reader 65535 2

/-!
Paged bump allocator (src/include/lb_paged_arena.h). Pages are listed from
`head` to `tail`; the `data` pointer is abstracted away, so an allocation is
identified by (page index, byte offset within the page).
-/

/-- `LB_PagedArenaPage`: fixed `capacity`, bump `length`. -/
structure LB_PagedArenaPage where
  capacity : Nat
  length : Nat
deriving DecidableEq

/-- `LB_PagedArena`: the page list (head first) and the default page capacity. -/
structure LB_PagedArena where
  pages : List LB_PagedArenaPage
  default_page_capacity : Nat
deriving DecidableEq

/-- `lbPagedArenaNew(default_page_capacity)`: rejects capacity 0, else one
empty page of the default capacity (allocation failure is not modelled). -/
def lbPagedArenaNew (default_page_capacity : Nat) : Option LB_PagedArena :=
  if default_page_capacity = 0 then none
  else some { pages := [{ capacity := default_page_capacity, length := 0 }]
              default_page_capacity := default_page_capacity }

/-- The `while (new_capacity < size) new_capacity *= 2;` loop. The C loop
diverges when `cap = 0`; that case is unreachable from `lbPagedArenaNew` and
is mapped to 0 here. -/
def growCapacity (cap size : Nat) : Nat :=
  if cap < size then
    if h : cap = 0 then 0 else growCapacity (cap * 2) size
  else cap
termination_by size - cap
decreasing_by
  have h1 : cap < cap * 2 := by omega
  omega

/-- The page-scan loop of `lbPagedArenaAlloc`: index of the first page with
`length + size <= capacity` (a `size_t` comparison), head to tail. -/
def lbPagedArenaFindPage (pages : List LB_PagedArenaPage) (size : Nat) : Option Nat :=
  match pages with
  | [] => none
  | pg :: rest =>
      if (pg.length + size) % U64MOD ≤ pg.capacity then some 0
      else (lbPagedArenaFindPage rest size).map (· + 1)

/-- `lbPagedArenaAlloc(arena, size)`: scan the pages head-to-tail for the first
with `length + size <= capacity` (a `size_t` comparison); bump it and return
(page index, old length). If none fits, create a page of capacity
`growCapacity default size`, link it at the tail and bump-allocate from it. -/
def lbPagedArenaAlloc (arena : LB_PagedArena) (size : Nat) :
    (Nat × Nat) × LB_PagedArena :=
  match lbPagedArenaFindPage arena.pages size with
  | some i =>
      let pg := arena.pages.getD i { capacity := 0, length := 0 }
      ((i, pg.length),
       { arena with pages :=
           arena.pages.set i { pg with length := (pg.length + size) % U64MOD } })
  | none =>
      let cap := growCapacity arena.default_page_capacity size
      ((arena.pages.length, 0),
       { arena with pages :=
           arena.pages ++ [{ capacity := cap, length := size % U64MOD }] })

/-- `lbPagedArenaClear(arena)`: reset every page's `length` to 0, keep pages. -/
def lbPagedArenaClear (arena : LB_PagedArena) : LB_PagedArena :=
  { arena with pages := arena.pages.map fun pg => { pg with length := 0 } }

/-!
Helper lemmas shared by the claim theorems.
-/

theorem readerCheck_buffer_eval (b : LB_ReaderBuffer) (vn : Bool) (n : Nat) :
    lbReaderCheckSafety (some (.buffer b)) vn n =
      ((if (b.position + n) % U64MOD > b.length then 1 else 0) |||
       (if b.data = none then 4 else 0)) |||
      (if vn then 8 else 0) := rfl

theorem writerCheck_buffer_eval (w : LB_WriterBuffer) (vn : Bool) (n : Nat) :
    lbWriterCheckSafety (some (.buffer w)) vn n =
      ((if (w.position + n) % U64MOD > w.length then 1 else 0) |||
       (if w.data = none then 4 else 0)) |||
      (if vn then 8 else 0) := rfl

theorem readerCheck_buffer_eq_zero (b : LB_ReaderBuffer) (vn : Bool) (n : Nat) :
    lbReaderCheckSafety (some (.buffer b)) vn n = 0 ↔
      (b.position + n) % U64MOD ≤ b.length ∧ b.data ≠ none ∧ vn = false := by
  rw [readerCheck_buffer_eval]
  rcases vn <;> rcases hd : b.data <;>
    by_cases h1 : (b.position + n) % U64MOD > b.length <;>
      simp [h1, hd] <;> omega

theorem writerCheck_buffer_eq_zero (w : LB_WriterBuffer) (vn : Bool) (n : Nat) :
    lbWriterCheckSafety (some (.buffer w)) vn n = 0 ↔
      (w.position + n) % U64MOD ≤ w.length ∧ w.data ≠ none ∧ vn = false := by
  rw [writerCheck_buffer_eval]
  rcases vn <;> rcases hd : w.data <;>
    by_cases h1 : (w.position + n) % U64MOD > w.length <;>
      simp [h1, hd] <;> omega

theorem lbRead_buffer_error_eq_check (b : LB_ReaderBuffer) (vn : Bool) (n : Nat) :
    (lbRead (.buffer b) vn n).error = lbReaderCheckSafety (some (.buffer b)) vn n := by
  by_cases h : lbReaderCheckSafety (some (.buffer b)) vn n ≠ 0 <;>
    simp_all [lbRead, lbReadUnchecked]

theorem lbReadReversed_buffer_error_eq_check (b : LB_ReaderBuffer) (vn : Bool) (n : Nat) :
    (lbReadReversed (.buffer b) vn n).error =
      lbReaderCheckSafety (some (.buffer b)) vn n := by
  by_cases h : lbReaderCheckSafety (some (.buffer b)) vn n ≠ 0 <;>
    simp_all [lbReadReversed, lbReadReversedUnchecked]

theorem lbWrite_buffer_error_eq_check (w : LB_WriterBuffer) (vn : Bool) (vs : List Nat) :
    (lbWrite (.buffer w) vn vs).error =
      lbWriterCheckSafety (some (.buffer w)) vn vs.length := by
  by_cases h : lbWriterCheckSafety (some (.buffer w)) vn vs.length ≠ 0 <;>
    simp_all [lbWrite, lbWriteUnchecked]

theorem lbWriteReversed_buffer_error_eq_check (w : LB_WriterBuffer) (vn : Bool)
    (vs : List Nat) :
    (lbWriteReversed (.buffer w) vn vs).error =
      lbWriterCheckSafety (some (.buffer w)) vn vs.length := by
  by_cases h : lbWriterCheckSafety (some (.buffer w)) vn vs.length ≠ 0 <;>
    simp_all [lbWriteReversed, lbWriteReversedUnchecked]

theorem lbRead_buffer_fail_frame (b : LB_ReaderBuffer) (vn : Bool) (n : Nat)
    (h : (lbRead (.buffer b) vn n).error ≠ 0) :
    (lbRead (.buffer b) vn n).reader = .buffer b := by
  by_cases hc : lbReaderCheckSafety (some (.buffer b)) vn n ≠ 0
  · simp [lbRead, hc]
  · rw [lbRead_buffer_error_eq_check] at h
    exact absurd h hc

theorem lbReadReversed_buffer_fail_frame (b : LB_ReaderBuffer) (vn : Bool) (n : Nat)
    (h : (lbReadReversed (.buffer b) vn n).error ≠ 0) :
    (lbReadReversed (.buffer b) vn n).reader = .buffer b := by
  by_cases hc : lbReaderCheckSafety (some (.buffer b)) vn n ≠ 0
  · simp [lbReadReversed, hc]
  · rw [lbReadReversed_buffer_error_eq_check] at h
    exact absurd h hc

theorem lbWrite_buffer_fail_frame (w : LB_WriterBuffer) (vn : Bool) (vs : List Nat)
    (h : (lbWrite (.buffer w) vn vs).error ≠ 0) :
    (lbWrite (.buffer w) vn vs).writer = .buffer w := by
  by_cases hc : lbWriterCheckSafety (some (.buffer w)) vn vs.length ≠ 0
  · simp [lbWrite, hc]
  · rw [lbWrite_buffer_error_eq_check] at h
    exact absurd h hc

theorem lbWriteReversed_buffer_fail_frame (w : LB_WriterBuffer) (vn : Bool)
    (vs : List Nat) (h : (lbWriteReversed (.buffer w) vn vs).error ≠ 0) :
    (lbWriteReversed (.buffer w) vn vs).writer = .buffer w := by
  by_cases hc : lbWriterCheckSafety (some (.buffer w)) vn vs.length ≠ 0
  · simp [lbWriteReversed, hc]
  · rw [lbWriteReversed_buffer_error_eq_check] at h
    exact absurd h hc

/-- C1: for every buffer-mode reader or writer, if a checked access
(`lbRead`, `lbReadReversed`, `lbWrite`, `lbWriteReversed`) returns a non-zero
error, the cursor (position, length, data) is exactly as before the call. -/
theorem c1_checked_failure_leaves_cursor_unchanged :
    (∀ (b : LB_ReaderBuffer) (vn : Bool) (n : Nat),
        (lbRead (.buffer b) vn n).error ≠ 0 →
        (lbRead (.buffer b) vn n).reader = .buffer b) ∧
    (∀ (b : LB_ReaderBuffer) (vn : Bool) (n : Nat),
        (lbReadReversed (.buffer b) vn n).error ≠ 0 →
        (lbReadReversed (.buffer b) vn n).reader = .buffer b) ∧
    (∀ (w : LB_WriterBuffer) (vn : Bool) (vs : List Nat),
        (lbWrite (.buffer w) vn vs).error ≠ 0 →
        (lbWrite (.buffer w) vn vs).writer = .buffer w) ∧
    (∀ (w : LB_WriterBuffer) (vn : Bool) (vs : List Nat),
        (lbWriteReversed (.buffer w) vn vs).error ≠ 0 →
        (lbWriteReversed (.buffer w) vn vs).writer = .buffer w) :=
  ⟨lbRead_buffer_fail_frame, lbReadReversed_buffer_fail_frame,
   lbWrite_buffer_fail_frame, lbWriteReversed_buffer_fail_frame⟩

/-- C1 witness: on a buffer cursor over a 1024-byte region at position 1020 an
8-byte checked read fails, its error has the END flag, and the cursor is left
at position 1020 with data and length untouched. -/
theorem c1_witness :
    (lbRead (.buffer ⟨some (List.replicate 1024 0), 1024, 1020⟩) false 8).error ≠ 0 ∧
    (lbRead (.buffer ⟨some (List.replicate 1024 0), 1024, 1020⟩) false 8).error &&&
      LB_READER_ERROR_END ≠ 0 ∧
    (lbRead (.buffer ⟨some (List.replicate 1024 0), 1024, 1020⟩) false 8).reader =
      .buffer ⟨some (List.replicate 1024 0), 1024, 1020⟩ :=
  ⟨by decide, by decide,
   c1_checked_failure_leaves_cursor_unchanged.1 _ _ _ (by decide)⟩

/-- C2 (amended): for a buffer-mode cursor with non-null data, the checked
access sets the out-of-range flag (`LB_READER_ERROR_END` / `LB_WRITER_ERROR_FULL`)
iff `(position + n) % 2^64 > length` — the `size_t` sum, not the unbounded one;
whenever `position + n` does not overflow `size_t` this coincides with
`position + n > length` in unbounded arithmetic. -/
theorem c2_end_flag_iff_wrapped_sum_exceeds (b : LB_ReaderBuffer)
    (w : LB_WriterBuffer) (vn : Bool) (n : Nat) (vs : List Nat)
    (hrd : b.data ≠ none) (hwd : w.data ≠ none) (hvs : vs.length = n) :
    ((lbRead (.buffer b) vn n).error &&& LB_READER_ERROR_END ≠ 0 ↔
        (b.position + n) % U64MOD > b.length) ∧
    ((lbWrite (.buffer w) vn vs).error &&& LB_WRITER_ERROR_FULL ≠ 0 ↔
        (w.position + n) % U64MOD > w.length) ∧
    (b.position + n < U64MOD →
      ((lbRead (.buffer b) vn n).error &&& LB_READER_ERROR_END ≠ 0 ↔
        b.position + n > b.length)) ∧
    (w.position + n < U64MOD →
      ((lbWrite (.buffer w) vn vs).error &&& LB_WRITER_ERROR_FULL ≠ 0 ↔
        w.position + n > w.length)) := by
  have hr : (lbRead (.buffer b) vn n).error &&& LB_READER_ERROR_END ≠ 0 ↔
      (b.position + n) % U64MOD > b.length := by
    rw [lbRead_buffer_error_eq_check, readerCheck_buffer_eval]
    rcases vn <;> rcases hd : b.data <;>
      split_ifs with h1 <;> simp_all [LB_READER_ERROR_END]
  have hw : (lbWrite (.buffer w) vn vs).error &&& LB_WRITER_ERROR_FULL ≠ 0 ↔
      (w.position + n) % U64MOD > w.length := by
    rw [lbWrite_buffer_error_eq_check, writerCheck_buffer_eval, hvs]
    rcases vn <;> rcases hd : w.data <;>
      split_ifs with h1 <;> simp_all [LB_WRITER_ERROR_FULL]
  refine ⟨hr, hw, ?_, ?_⟩
  · intro hov
    rw [hr, Nat.mod_eq_of_lt hov]
  · intro hov
    rw [hw, Nat.mod_eq_of_lt hov]

/-- C2 witness: reader at position 3 of a 4-byte region with a 2-byte request
sets END ((3+2) mod 2^64 = 5 > 4); writer at position 1 with a 2-byte request
does not (3 ≤ 4); both agree with unbounded arithmetic since no overflow. -/
theorem c2_witness :
    ((some [0, 0, 0, 0] : Option (List Nat)) ≠ none ∧
     (some [9, 9, 9, 9] : Option (List Nat)) ≠ none ∧
     ([7, 7] : List Nat).length = 2) ∧
    ((lbRead (.buffer ⟨some [0, 0, 0, 0], 4, 3⟩) false 2).error &&&
        LB_READER_ERROR_END ≠ 0 ↔ (3 + 2) % U64MOD > 4) ∧
    ((lbWrite (.buffer ⟨some [9, 9, 9, 9], 4, 1⟩) false [7, 7]).error &&&
        LB_WRITER_ERROR_FULL ≠ 0 ↔ (1 + 2) % U64MOD > 4) :=
  ⟨⟨by decide, by decide, by decide⟩,
   (c2_end_flag_iff_wrapped_sum_exceeds ⟨some [0, 0, 0, 0], 4, 3⟩
      ⟨some [9, 9, 9, 9], 4, 1⟩ false 2 [7, 7]
      (by decide) (by decide) (by decide)).1,
   (c2_end_flag_iff_wrapped_sum_exceeds ⟨some [0, 0, 0, 0], 4, 3⟩
      ⟨some [9, 9, 9, 9], 4, 1⟩ false 2 [7, 7]
      (by decide) (by decide) (by decide)).2.1⟩

/-- C2 counterexample: the claim as stated (END flag iff the unbounded sum
`position + n` exceeds `length`, for any `size_t` n) is false: at position 5 of
a 10-byte region a request of `n = 2^64 - 1` wraps the `size_t` sum to 4, so no
END flag is set although `5 + n > 10` in unbounded arithmetic. -/
theorem c2_counterexample :
    (lbRead (.buffer ⟨some [0, 0, 0, 0, 0, 0, 0, 0, 0, 0], 10, 5⟩) false
        (2 ^ 64 - 1)).error &&& LB_READER_ERROR_END = 0 ∧
    5 + (2 ^ 64 - 1) > 10 := by
  constructor
  · rfl
  · decide

/-- C8: buffer-mode seek fails with the out-of-range error and leaves the
cursor untouched when `pos ≥ length`, and otherwise succeeds setting
`position := pos`; `length` and `data` are never modified. -/
theorem c8_seek_bounds (b : LB_ReaderBuffer) (w : LB_WriterBuffer) (p q : Nat) :
    (p ≥ b.length → lbReaderSeek (.buffer b) p = (LB_READER_ERROR_END, .buffer b)) ∧
    (p < b.length →
        lbReaderSeek (.buffer b) p = (0, .buffer { b with position := p })) ∧
    (q ≥ w.length → lbWriterSeek (.buffer w) q = (LB_WRITER_ERROR_FULL, .buffer w)) ∧
    (q < w.length →
        lbWriterSeek (.buffer w) q = (0, .buffer { w with position := q })) := by
  refine ⟨fun h => ?_, fun h => ?_, fun h => ?_, fun h => ?_⟩
  · simp [lbReaderSeek, h]
  · simp [lbReaderSeek, Nat.not_le.mpr h]
  · simp [lbWriterSeek, h]
  · simp [lbWriterSeek, Nat.not_le.mpr h]

/-- C8 witness: over a 1024-byte region, seeking to 1024 fails and keeps the
cursor, seeking to 1020 succeeds and sets position 1020; same for the writer. -/
theorem c8_witness :
    (1024 ≥ 1024 ∧ 1020 < 1024) ∧
    lbReaderSeek (.buffer ⟨some [0], 1024, 7⟩) 1024 =
      (LB_READER_ERROR_END, .buffer ⟨some [0], 1024, 7⟩) ∧
    lbReaderSeek (.buffer ⟨some [0], 1024, 7⟩) 1020 =
      (0, .buffer ⟨some [0], 1024, 1020⟩) ∧
    lbWriterSeek (.buffer ⟨some [0], 1024, 7⟩) 1024 =
      (LB_WRITER_ERROR_FULL, .buffer ⟨some [0], 1024, 7⟩) ∧
    lbWriterSeek (.buffer ⟨some [0], 1024, 7⟩) 1020 =
      (0, .buffer ⟨some [0], 1024, 1020⟩) :=
  ⟨⟨by decide, by decide⟩,
   (c8_seek_bounds ⟨some [0], 1024, 7⟩ ⟨some [0], 1024, 7⟩ 1024 1024).1 (by decide),
   (c8_seek_bounds ⟨some [0], 1024, 7⟩ ⟨some [0], 1024, 7⟩ 1020 1020).2.1 (by decide),
   (c8_seek_bounds ⟨some [0], 1024, 7⟩ ⟨some [0], 1024, 7⟩ 1024 1024).2.2.1 (by decide),
   (c8_seek_bounds ⟨some [0], 1024, 7⟩ ⟨some [0], 1024, 7⟩ 1020 1020).2.2.2 (by decide)⟩

theorem bufferWriteBytes_length (d vs : List Nat) (p : Nat)
    (h : p + vs.length ≤ d.length) :
    (bufferWriteBytes d p vs).length = d.length := by
  simp [bufferWriteBytes]
  omega

theorem bufferWriteBytes_readback (d vs : List Nat) (p : Nat)
    (h : p + vs.length ≤ d.length) :
    ((bufferWriteBytes d p vs).drop p).take vs.length = vs := by
  unfold bufferWriteBytes
  rw [List.append_assoc, List.drop_left', List.take_left' rfl]
  rw [List.length_take]
  omega

theorem natToLE_length (size v : Nat) : (natToLE size v).length = size := by
  induction size generalizing v with
  | zero => rfl
  | succ k ih => simp [natToLE, ih]

theorem leToNat_natToLE (size v : Nat) :
    leToNat (natToLE size v) = v % 256 ^ size := by
  induction size generalizing v with
  | zero => simp [natToLE, leToNat, Nat.mod_one]
  | succ k ih =>
      rw [natToLE, leToNat, ih, pow_succ, mul_comm (256 ^ k) 256, Nat.mod_mul]

theorem lbWrite_buffer_ok_shape (d vs : List Nat) (L p : Nat)
    (_hL : d.length = L) (hU : L < U64MOD) (hp : p + vs.length ≤ L) :
    lbWrite (.buffer ⟨some d, L, p⟩) false vs =
      ⟨0, .buffer ⟨some (bufferWriteBytes d p vs), L, p + vs.length⟩, []⟩ := by
  have hmod : (p + vs.length) % U64MOD = p + vs.length :=
    Nat.mod_eq_of_lt (lt_of_le_of_lt hp hU)
  have hc : lbWriterCheckSafety (some (.buffer ⟨some d, L, p⟩)) false vs.length = 0 := by
    rw [writerCheck_buffer_eq_zero]
    refine ⟨?_, by simp, rfl⟩
    simpa [hmod] using hp
  simp [lbWrite, hc, lbWriteUnchecked, hmod]

theorem lbWriteReversed_buffer_ok_shape (d vs : List Nat) (L p : Nat)
    (_hL : d.length = L) (hU : L < U64MOD) (hp : p + vs.length ≤ L) :
    lbWriteReversed (.buffer ⟨some d, L, p⟩) false vs =
      ⟨0, .buffer ⟨some (bufferWriteBytes d p vs.reverse), L, p + vs.length⟩, []⟩ := by
  have hmod : (p + vs.length) % U64MOD = p + vs.length :=
    Nat.mod_eq_of_lt (lt_of_le_of_lt hp hU)
  have hc : lbWriterCheckSafety (some (.buffer ⟨some d, L, p⟩)) false vs.length = 0 := by
    rw [writerCheck_buffer_eq_zero]
    refine ⟨?_, by simp, rfl⟩
    simpa [hmod] using hp
  simp [lbWriteReversed, hc, lbWriteReversedUnchecked, hmod]

theorem lbRead_buffer_ok_shape (d : List Nat) (L p n : Nat)
    (_hL : d.length = L) (hU : L < U64MOD) (hp : p + n ≤ L) :
    lbRead (.buffer ⟨some d, L, p⟩) false n =
      ⟨0, (d.drop p).take n, .buffer ⟨some d, L, p + n⟩, []⟩ := by
  have hmod : (p + n) % U64MOD = p + n := Nat.mod_eq_of_lt (lt_of_le_of_lt hp hU)
  have hc : lbReaderCheckSafety (some (.buffer ⟨some d, L, p⟩)) false n = 0 := by
    rw [readerCheck_buffer_eq_zero]
    refine ⟨?_, by simp, rfl⟩
    simpa [hmod] using hp
  simp [lbRead, hc, lbReadUnchecked, hmod]

theorem lbReadReversed_buffer_ok_shape (d : List Nat) (L p n : Nat)
    (_hL : d.length = L) (hU : L < U64MOD) (hp : p + n ≤ L) :
    lbReadReversed (.buffer ⟨some d, L, p⟩) false n =
      ⟨0, ((d.drop p).take n).reverse, .buffer ⟨some d, L, p + n⟩, []⟩ := by
  have hmod : (p + n) % U64MOD = p + n := Nat.mod_eq_of_lt (lt_of_le_of_lt hp hU)
  have hc : lbReaderCheckSafety (some (.buffer ⟨some d, L, p⟩)) false n = 0 := by
    rw [readerCheck_buffer_eq_zero]
    refine ⟨?_, by simp, rfl⟩
    simpa [hmod] using hp
  simp [lbReadReversed, hc, lbReadReversedUnchecked, hmod]

/-- C3: on a buffer-mode writer with at least as many bytes remaining as the
access width, writing a value's byte representation and reading it back with
the same byte-order selection reproduces it bit-exactly: forward write +
forward read (the native and the host-order accessors) and reversed write +
reversed read (the cross-order accessors) both return the original bytes, for
every access width in {1,2,4,8}; instantiated for the typed 32-bit accessors
`lbWriteU32`/`lbReadU32` and `lbWriteU32BE`/`lbReadU32BE`. Values are
identified with their in-memory byte representation, so this covers the
signed, unsigned and float accessors alike (they all hand `sizeof(value)` raw
bytes to the same transfers). Each conjunct carries exactly the room its own
width needs. -/
theorem c3_same_order_roundtrip_bit_exact :
    (∀ (d vs : List Nat) (L p : Nat),
        vs.length ∈ ([1, 2, 4, 8] : List Nat) → d.length = L → L < U64MOD →
        p + vs.length ≤ L →
        (lbWrite (.buffer ⟨some d, L, p⟩) false vs).error = 0 ∧
        ∃ d', (lbWrite (.buffer ⟨some d, L, p⟩) false vs).writer =
            .buffer ⟨some d', L, p + vs.length⟩ ∧
          lbRead (.buffer ⟨some d', L, p⟩) false vs.length =
            ⟨0, vs, .buffer ⟨some d', L, p + vs.length⟩, []⟩) ∧
    (∀ (d vs : List Nat) (L p : Nat),
        vs.length ∈ ([1, 2, 4, 8] : List Nat) → d.length = L → L < U64MOD →
        p + vs.length ≤ L →
        (lbWriteReversed (.buffer ⟨some d, L, p⟩) false vs).error = 0 ∧
        ∃ d', (lbWriteReversed (.buffer ⟨some d, L, p⟩) false vs).writer =
            .buffer ⟨some d', L, p + vs.length⟩ ∧
          lbReadReversed (.buffer ⟨some d', L, p⟩) false vs.length =
            ⟨0, vs, .buffer ⟨some d', L, p + vs.length⟩, []⟩) ∧
    (∀ (d : List Nat) (L p v : Nat), d.length = L → L < U64MOD → p + 4 ≤ L →
        (lbWriteU32 (.buffer ⟨some d, L, p⟩) v).error = 0 ∧
        ∃ d', (lbWriteU32 (.buffer ⟨some d, L, p⟩) v).writer =
            .buffer ⟨some d', L, p + 4⟩ ∧
          lbReadU32 (.buffer ⟨some d', L, p⟩) =
            (0, v % 2 ^ 32, .buffer ⟨some d', L, p + 4⟩)) ∧
    (∀ (d : List Nat) (L p v : Nat), d.length = L → L < U64MOD → p + 4 ≤ L →
        (lbWriteU32BE (.buffer ⟨some d, L, p⟩) v).error = 0 ∧
        ∃ d', (lbWriteU32BE (.buffer ⟨some d, L, p⟩) v).writer =
            .buffer ⟨some d', L, p + 4⟩ ∧
          lbReadU32BE (.buffer ⟨some d', L, p⟩) =
            (0, v % 2 ^ 32, .buffer ⟨some d', L, p + 4⟩)) := by
  refine ⟨fun d vs L p _hw hL hU hp => ⟨?_, ?_⟩,
    fun d vs L p _hw hL hU hp => ⟨?_, ?_⟩,
    fun d L p v hL hU hp4 => ⟨?_, ?_⟩,
    fun d L p v hL hU hp4 => ⟨?_, ?_⟩⟩
  · rw [lbWrite_buffer_ok_shape d vs L p hL hU hp]
  · refine ⟨bufferWriteBytes d p vs, ?_, ?_⟩
    · rw [lbWrite_buffer_ok_shape d vs L p hL hU hp]
    · have hd' : (bufferWriteBytes d p vs).length = L := by
        rw [bufferWriteBytes_length d vs p (by omega), hL]
      rw [lbRead_buffer_ok_shape _ L p vs.length hd' hU hp,
        bufferWriteBytes_readback d vs p (by omega)]
  · rw [lbWriteReversed_buffer_ok_shape d vs L p hL hU hp]
  · refine ⟨bufferWriteBytes d p vs.reverse, ?_, ?_⟩
    · rw [lbWriteReversed_buffer_ok_shape d vs L p hL hU hp]
    · have hdrev : (bufferWriteBytes d p vs.reverse).length = L := by
        rw [bufferWriteBytes_length d vs.reverse p
          (by simpa using (by omega : p + vs.length ≤ d.length)), hL]
      rw [lbReadReversed_buffer_ok_shape _ L p vs.length hdrev hU hp]
      have hrb : ((bufferWriteBytes d p vs.reverse).drop p).take vs.length =
          vs.reverse := by
        have := bufferWriteBytes_readback d vs.reverse p
          (by simpa using (by omega : p + vs.length ≤ d.length))
        simpa using this
      rw [hrb, List.reverse_reverse]
  · unfold lbWriteU32
    rw [lbWrite_buffer_ok_shape d _ L p hL hU (by rw [natToLE_length]; exact hp4)]
  · refine ⟨bufferWriteBytes d p (natToLE 4 (v % 2 ^ 32)), ?_, ?_⟩
    · unfold lbWriteU32
      rw [lbWrite_buffer_ok_shape d _ L p hL hU (by rw [natToLE_length]; exact hp4),
        natToLE_length]
    · have hlen : (bufferWriteBytes d p (natToLE 4 (v % 2 ^ 32))).length = L := by
        rw [bufferWriteBytes_length _ _ p (by rw [natToLE_length]; omega), hL]
      unfold lbReadU32
      rw [lbRead_buffer_ok_shape _ L p 4 hlen hU hp4]
      have hrb := bufferWriteBytes_readback d (natToLE 4 (v % 2 ^ 32)) p
        (by rw [natToLE_length]; omega)
      rw [natToLE_length] at hrb
      rw [hrb]
      simp [leToNat_natToLE, show (256 : Nat) ^ 4 = 2 ^ 32 by norm_num]
  · unfold lbWriteU32BE
    rw [lbWriteReversed_buffer_ok_shape d _ L p hL hU
      (by rw [natToLE_length]; exact hp4)]
  · refine ⟨bufferWriteBytes d p (natToLE 4 (v % 2 ^ 32)).reverse, ?_, ?_⟩
    · unfold lbWriteU32BE
      rw [lbWriteReversed_buffer_ok_shape d _ L p hL hU
        (by rw [natToLE_length]; exact hp4), natToLE_length]
    · have hlen : (bufferWriteBytes d p (natToLE 4 (v % 2 ^ 32)).reverse).length = L := by
        rw [bufferWriteBytes_length _ _ p (by simp [natToLE_length]; omega), hL]
      unfold lbReadU32BE
      rw [lbReadReversed_buffer_ok_shape _ L p 4 hlen hU hp4]
      have hrb := bufferWriteBytes_readback d (natToLE 4 (v % 2 ^ 32)).reverse p
        (by simp [natToLE_length]; omega)
      rw [List.length_reverse, natToLE_length] at hrb
      rw [hrb, List.reverse_reverse]
      simp [leToNat_natToLE, show (256 : Nat) ^ 4 = 2 ^ 32 by norm_num]

/-- C3 witness: the 2-byte value `[0xAB, 0xCD]` round-trips in an
exactly-2-byte buffer through the forward pair and through the reversed pair
(no slack beyond its own width), and `0x12345678` round-trips through the
typed 32-bit accessors in an 8-byte buffer at position 2. -/
theorem c3_witness :
    (([171, 205] : List Nat).length ∈ ([1, 2, 4, 8] : List Nat) ∧
     ([0, 0] : List Nat).length = 2 ∧ 2 < U64MOD ∧
     0 + ([171, 205] : List Nat).length ≤ 2 ∧
     ([0, 0, 0, 0, 0, 0, 0, 0] : List Nat).length = 8 ∧ 8 < U64MOD ∧
     2 + 4 ≤ 8) ∧
    ((lbWrite (.buffer ⟨some [0, 0], 2, 0⟩) false [171, 205]).error = 0 ∧
     ∃ d', (lbWrite (.buffer ⟨some [0, 0], 2, 0⟩) false [171, 205]).writer =
         .buffer ⟨some d', 2, 0 + ([171, 205] : List Nat).length⟩ ∧
       lbRead (.buffer ⟨some d', 2, 0⟩) false ([171, 205] : List Nat).length =
         ⟨0, [171, 205], .buffer ⟨some d', 2, 0 + ([171, 205] : List Nat).length⟩, []⟩) ∧
    ((lbWriteReversed (.buffer ⟨some [0, 0], 2, 0⟩) false [171, 205]).error = 0 ∧
     ∃ d', (lbWriteReversed (.buffer ⟨some [0, 0], 2, 0⟩) false [171, 205]).writer =
         .buffer ⟨some d', 2, 0 + ([171, 205] : List Nat).length⟩ ∧
       lbReadReversed (.buffer ⟨some d', 2, 0⟩) false ([171, 205] : List Nat).length =
         ⟨0, [171, 205], .buffer ⟨some d', 2, 0 + ([171, 205] : List Nat).length⟩, []⟩) ∧
    ((lbWriteU32 (.buffer ⟨some [0, 0, 0, 0, 0, 0, 0, 0], 8, 2⟩) 305419896).error = 0 ∧
     ∃ d', (lbWriteU32 (.buffer ⟨some [0, 0, 0, 0, 0, 0, 0, 0], 8, 2⟩)
         305419896).writer = .buffer ⟨some d', 8, 2 + 4⟩ ∧
       lbReadU32 (.buffer ⟨some d', 8, 2⟩) =
         (0, 305419896 % 2 ^ 32, .buffer ⟨some d', 8, 2 + 4⟩)) :=
  ⟨⟨by decide, by decide, by decide, by decide, by decide, by decide, by decide⟩,
   c3_same_order_roundtrip_bit_exact.1 [0, 0] [171, 205] 2 0
     (by decide) (by decide) (by decide) (by decide),
   c3_same_order_roundtrip_bit_exact.2.1 [0, 0] [171, 205] 2 0
     (by decide) (by decide) (by decide) (by decide),
   c3_same_order_roundtrip_bit_exact.2.2.1 [0, 0, 0, 0, 0, 0, 0, 0] 8 2 305419896
     (by decide) (by decide) (by decide)⟩

/-!
Operation sequences over a buffer cursor, for the state invariant (C9).
-/

/-- A checked reader operation: plain read, reversed read, or seek. The typed
accessors are instances of the first two with `n` equal to `sizeof(value)`. -/
inductive ReaderOp where
  | rd (n : Nat)
  | rdRev (n : Nat)
  | seek (p : Nat)
deriving DecidableEq

/-- A checked writer operation: plain write, reversed write, or seek. -/
inductive WriterOp where
  | wr (vs : List Nat)
  | wrRev (vs : List Nat)
  | seek (p : Nat)
deriving DecidableEq

/-- Apply one checked reader operation (non-null out pointer). -/
def applyReaderOp (r : LB_Reader) : ReaderOp → LB_Reader
  | .rd n => (lbRead r false n).reader
  | .rdRev n => (lbReadReversed r false n).reader
  | .seek p => (lbReaderSeek r p).2

/-- Apply a sequence of checked reader operations, first op first. -/
def applyReaderOps (r : LB_Reader) : List ReaderOp → LB_Reader
  | [] => r
  | op :: rest => applyReaderOps (applyReaderOp r op) rest

/-- Apply one checked writer operation (non-null value pointer). -/
def applyWriterOp (w : LB_Writer) : WriterOp → LB_Writer
  | .wr vs => (lbWrite w false vs).writer
  | .wrRev vs => (lbWriteReversed w false vs).writer
  | .seek p => (lbWriterSeek w p).2

/-- Apply a sequence of checked writer operations, first op first. -/
def applyWriterOps (w : LB_Writer) : List WriterOp → LB_Writer
  | [] => w
  | op :: rest => applyWriterOps (applyWriterOp w op) rest

theorem lbRead_buffer_ok_reader (b : LB_ReaderBuffer) (vn : Bool) (n : Nat)
    (h : (lbRead (.buffer b) vn n).error = 0) :
    (lbRead (.buffer b) vn n).reader =
      .buffer { b with position := (b.position + n) % U64MOD } ∧
    (b.position + n) % U64MOD ≤ b.length := by
  rw [lbRead_buffer_error_eq_check] at h
  have hb := (readerCheck_buffer_eq_zero b vn n).mp h
  constructor
  · simp [lbRead, h, lbReadUnchecked]
  · exact hb.1

theorem lbReadReversed_buffer_ok_reader (b : LB_ReaderBuffer) (vn : Bool) (n : Nat)
    (h : (lbReadReversed (.buffer b) vn n).error = 0) :
    (lbReadReversed (.buffer b) vn n).reader =
      .buffer { b with position := (b.position + n) % U64MOD } ∧
    (b.position + n) % U64MOD ≤ b.length := by
  rw [lbReadReversed_buffer_error_eq_check] at h
  have hb := (readerCheck_buffer_eq_zero b vn n).mp h
  constructor
  · simp [lbReadReversed, h, lbReadReversedUnchecked]
  · exact hb.1

theorem lbWrite_buffer_ok_writer (w : LB_WriterBuffer) (vn : Bool) (vs : List Nat)
    (h : (lbWrite (.buffer w) vn vs).error = 0) :
    (lbWrite (.buffer w) vn vs).writer =
      .buffer { w with
        data := some (bufferWriteBytes (w.data.getD []) w.position vs)
        position := (w.position + vs.length) % U64MOD } ∧
    (w.position + vs.length) % U64MOD ≤ w.length := by
  rw [lbWrite_buffer_error_eq_check] at h
  have hb := (writerCheck_buffer_eq_zero w vn vs.length).mp h
  constructor
  · simp [lbWrite, h, lbWriteUnchecked]
  · exact hb.1

theorem lbWriteReversed_buffer_ok_writer (w : LB_WriterBuffer) (vn : Bool)
    (vs : List Nat) (h : (lbWriteReversed (.buffer w) vn vs).error = 0) :
    (lbWriteReversed (.buffer w) vn vs).writer =
      .buffer { w with
        data := some (bufferWriteBytes (w.data.getD []) w.position vs.reverse)
        position := (w.position + vs.length) % U64MOD } ∧
    (w.position + vs.length) % U64MOD ≤ w.length := by
  rw [lbWriteReversed_buffer_error_eq_check] at h
  have hb := (writerCheck_buffer_eq_zero w vn vs.length).mp h
  constructor
  · simp [lbWriteReversed, h, lbWriteReversedUnchecked]
  · exact hb.1

theorem applyReaderOp_invariant (b : LB_ReaderBuffer) (op : ReaderOp)
    (hinv : b.position ≤ b.length) :
    ∃ b', applyReaderOp (.buffer b) op = .buffer b' ∧
      b'.position ≤ b'.length ∧ b'.length = b.length ∧ b'.data = b.data := by
  cases op with
  | rd n =>
      by_cases h : (lbRead (.buffer b) false n).error = 0
      · obtain ⟨hr, hle⟩ := lbRead_buffer_ok_reader b false n h
        exact ⟨_, hr, hle, rfl, rfl⟩
      · exact ⟨b, lbRead_buffer_fail_frame b false n h, hinv, rfl, rfl⟩
  | rdRev n =>
      by_cases h : (lbReadReversed (.buffer b) false n).error = 0
      · obtain ⟨hr, hle⟩ := lbReadReversed_buffer_ok_reader b false n h
        exact ⟨_, hr, hle, rfl, rfl⟩
      · exact ⟨b, lbReadReversed_buffer_fail_frame b false n h, hinv, rfl, rfl⟩
  | seek p =>
      by_cases h : p < b.length
      · refine ⟨{ b with position := p }, ?_, le_of_lt h, rfl, rfl⟩
        simp [applyReaderOp, lbReaderSeek, Nat.not_le.mpr h]
      · refine ⟨b, ?_, hinv, rfl, rfl⟩
        simp [applyReaderOp, lbReaderSeek, Nat.le_of_not_lt h]

theorem applyWriterOp_invariant (w : LB_WriterBuffer) (op : WriterOp)
    (hinv : w.position ≤ w.length) :
    ∃ w', applyWriterOp (.buffer w) op = .buffer w' ∧
      w'.position ≤ w'.length ∧ w'.length = w.length := by
  cases op with
  | wr vs =>
      by_cases h : (lbWrite (.buffer w) false vs).error = 0
      · obtain ⟨hr, hle⟩ := lbWrite_buffer_ok_writer w false vs h
        exact ⟨_, hr, hle, rfl⟩
      · exact ⟨w, lbWrite_buffer_fail_frame w false vs h, hinv, rfl⟩
  | wrRev vs =>
      by_cases h : (lbWriteReversed (.buffer w) false vs).error = 0
      · obtain ⟨hr, hle⟩ := lbWriteReversed_buffer_ok_writer w false vs h
        exact ⟨_, hr, hle, rfl⟩
      · exact ⟨w, lbWriteReversed_buffer_fail_frame w false vs h, hinv, rfl⟩
  | seek p =>
      by_cases h : p < w.length
      · refine ⟨{ w with position := p }, ?_, le_of_lt h, rfl⟩
        simp [applyWriterOp, lbWriterSeek, Nat.not_le.mpr h]
      · refine ⟨w, ?_, hinv, rfl⟩
        simp [applyWriterOp, lbWriterSeek, Nat.le_of_not_lt h]

theorem applyReaderOps_invariant (ops : List ReaderOp) (b : LB_ReaderBuffer)
    (hinv : b.position ≤ b.length) :
    ∃ b', applyReaderOps (.buffer b) ops = .buffer b' ∧
      b'.position ≤ b'.length ∧ b'.length = b.length ∧ b'.data = b.data := by
  induction ops generalizing b with
  | nil => exact ⟨b, rfl, hinv, rfl, rfl⟩
  | cons op rest ih =>
      obtain ⟨b1, h1, hle1, hlen1, hdata1⟩ := applyReaderOp_invariant b op hinv
      obtain ⟨b', h', hle', hlen', hdata'⟩ := ih b1 hle1
      refine ⟨b', ?_, hle', hlen1 ▸ hlen', hdata1 ▸ hdata'⟩
      simpa [applyReaderOps, h1] using h'

theorem applyWriterOps_invariant (ops : List WriterOp) (w : LB_WriterBuffer)
    (hinv : w.position ≤ w.length) :
    ∃ w', applyWriterOps (.buffer w) ops = .buffer w' ∧
      w'.position ≤ w'.length ∧ w'.length = w.length := by
  induction ops generalizing w with
  | nil => exact ⟨w, rfl, hinv, rfl⟩
  | cons op rest ih =>
      obtain ⟨w1, h1, hle1, hlen1⟩ := applyWriterOp_invariant w op hinv
      obtain ⟨w', h', hle', hlen'⟩ := ih w1 hle1
      refine ⟨w', ?_, hle', hlen1 ▸ hlen'⟩
      simpa [applyWriterOps, h1] using h'

/-- C9: a buffer cursor obtained from a successful `lbReaderInitBuffer` /
`lbWriterInitBuffer` stays in buffer mode with its `length` (and, for the
reader, its `data`) unchanged and `position ≤ length` after any sequence of
checked operations; and across a single operation the position is unchanged on
failure and moves exactly to `(position + n) % 2^64` on a successful access
resp. to `p` on a successful seek. -/
theorem c9_invariant_preserved (d : List Nat) (L : Nat) (r : LB_Reader)
    (w : LB_Writer) (rops : List ReaderOp) (wops : List WriterOp)
    (hri : lbReaderInitBuffer false (some d) L = (0, some r))
    (hwi : lbWriterInitBuffer false (some d) L = (0, some w)) :
    (∃ b', applyReaderOps r rops = .buffer b' ∧
       b'.position ≤ b'.length ∧ b'.length = L ∧ b'.data = some d) ∧
    (∃ w', applyWriterOps w wops = .buffer w' ∧
       w'.position ≤ w'.length ∧ w'.length = L) ∧
    (∀ (b : LB_ReaderBuffer) (n : Nat),
       ((lbRead (.buffer b) false n).error ≠ 0 →
          (lbRead (.buffer b) false n).reader = .buffer b) ∧
       ((lbRead (.buffer b) false n).error = 0 →
          (lbRead (.buffer b) false n).reader =
            .buffer { b with position := (b.position + n) % U64MOD })) ∧
    (∀ (b : LB_ReaderBuffer) (p : Nat),
       (p ≥ b.length → (lbReaderSeek (.buffer b) p).2 = .buffer b) ∧
       (p < b.length →
          (lbReaderSeek (.buffer b) p).2 = .buffer { b with position := p })) ∧
    (∀ (wb : LB_WriterBuffer) (vs : List Nat),
       ((lbWrite (.buffer wb) false vs).error ≠ 0 →
          (lbWrite (.buffer wb) false vs).writer = .buffer wb) ∧
       ((lbWrite (.buffer wb) false vs).error = 0 →
          ∃ d', (lbWrite (.buffer wb) false vs).writer =
            .buffer ⟨d', wb.length, (wb.position + vs.length) % U64MOD⟩)) := by
  have hrinit : r = .buffer ⟨some d, L, 0⟩ := by
    by_cases hL : L = 0 <;> simp_all [lbReaderInitBuffer]
  have hwinit : w = .buffer ⟨some d, L, 0⟩ := by
    by_cases hL : L = 0 <;> simp_all [lbWriterInitBuffer]
  refine ⟨?_, ?_, ?_, ?_, ?_⟩
  · subst hrinit
    exact applyReaderOps_invariant rops ⟨some d, L, 0⟩ (Nat.zero_le L)
  · subst hwinit
    exact applyWriterOps_invariant wops ⟨some d, L, 0⟩ (Nat.zero_le L)
  · intro b n
    exact ⟨lbRead_buffer_fail_frame b false n,
           fun h => (lbRead_buffer_ok_reader b false n h).1⟩
  · intro b p
    constructor
    · intro h
      simp [lbReaderSeek, h]
    · intro h
      simp [lbReaderSeek, Nat.not_le.mpr h]
  · intro wb vs
    refine ⟨lbWrite_buffer_fail_frame wb false vs, fun h => ?_⟩
    exact ⟨_, (lbWrite_buffer_ok_writer wb false vs h).1⟩

/-- C9 witness: init over a 4-byte region, then a mixed op sequence; the
invariant conclusions are obtained from the theorem at this concrete input. -/
theorem c9_witness :
    (lbReaderInitBuffer false (some [1, 2, 3, 4]) 4 =
       (0, some (.buffer ⟨some [1, 2, 3, 4], 4, 0⟩)) ∧
     lbWriterInitBuffer false (some [1, 2, 3, 4]) 4 =
       (0, some (.buffer ⟨some [1, 2, 3, 4], 4, 0⟩))) ∧
    (∃ b', applyReaderOps (.buffer ⟨some [1, 2, 3, 4], 4, 0⟩)
         [.rd 2, .seek 1, .rdRev 2, .rd 8] = .buffer b' ∧
       b'.position ≤ b'.length ∧ b'.length = 4 ∧ b'.data = some [1, 2, 3, 4]) :=
  ⟨⟨by decide, by decide⟩,
   (c9_invariant_preserved [1, 2, 3, 4] 4 (.buffer ⟨some [1, 2, 3, 4], 4, 0⟩)
      (.buffer ⟨some [1, 2, 3, 4], 4, 0⟩)
      [.rd 2, .seek 1, .rdRev 2, .rd 8] [] (by decide) (by decide)).1⟩

theorem lbWriteReversedFileLoop_calls (rev : List Nat) (f : LB_File) :
    (lbWriteReversedFileLoop f rev).2.2 = List.replicate rev.length 1 := by
  induction rev generalizing f with
  | nil => rfl
  | cons byte rest ih =>
      simp [lbWriteReversedFileLoop, fwrite, ih, List.replicate_succ]

/-- C4: file-mode reversed transfers and their backend call traces. The read
direction issues exactly one full-span `fread` for every access length; the
write direction, contrary to the claim, issues one single-byte `fwrite` per
byte (the source even carries a `TODO: Do NOT write one byte at a time!`),
so a 4-byte reversed write performs four 1-byte backend calls, not one 4-byte
call. -/
theorem c4_file_reversed_backend_calls :
    (∀ (f : LB_File) (n : Nat),
        (lbReadReversedUnchecked (.file (some f)) n).calls = [n]) ∧
    (∀ (f : LB_File) (vs : List Nat),
        (lbWriteReversedUnchecked (.file (some f)) vs).calls =
          List.replicate vs.length 1) ∧
    (lbWriteReversedUnchecked (.file (some ⟨[], 0⟩)) [1, 2, 3, 4]).calls =
      [1, 1, 1, 1] ∧
    ([1, 1, 1, 1] : List Nat) ≠ [4] := by
  refine ⟨fun f n => ?_, fun f vs => ?_, by decide, by decide⟩
  · unfold lbReadReversedUnchecked
    dsimp only
    split <;> rfl
  · unfold lbWriteReversedUnchecked
    dsimp only
    rw [lbWriteReversedFileLoop_calls, List.length_reverse]

theorem growCapacity_64_32 : growCapacity 64 32 = 64 := by
  simp [growCapacity]

/-- C5 counterexample: with default page capacity 64, the third `alloc(32)`
does not land in the first page — `64 + 32 > 64` already overflows — so a new
page (index 1) is created at the third call, and the first page's length is 64
thereafter, never 96. -/
theorem c5_counterexample :
    lbPagedArenaNew 64 =
      some { pages := [{ capacity := 64, length := 0 }],
             default_page_capacity := 64 } ∧
    lbPagedArenaAlloc { pages := [{ capacity := 64, length := 0 }],
                        default_page_capacity := 64 } 32 =
      ((0, 0), { pages := [{ capacity := 64, length := 32 }],
                 default_page_capacity := 64 }) ∧
    lbPagedArenaAlloc { pages := [{ capacity := 64, length := 32 }],
                        default_page_capacity := 64 } 32 =
      ((0, 32), { pages := [{ capacity := 64, length := 64 }],
                  default_page_capacity := 64 }) ∧
    lbPagedArenaAlloc { pages := [{ capacity := 64, length := 64 }],
                        default_page_capacity := 64 } 32 =
      ((1, 0), { pages := [{ capacity := 64, length := 64 },
                           { capacity := 64, length := 32 }],
                 default_page_capacity := 64 }) ∧
    (1 : Nat) ≠ 0 ∧ (64 : Nat) ≠ 96 := by
  refine ⟨?_, ?_, ?_, ?_, by decide, by decide⟩
  · simp [lbPagedArenaNew]
  · simp [lbPagedArenaAlloc, lbPagedArenaFindPage, U64MOD, List.getD]
  · simp [lbPagedArenaAlloc, lbPagedArenaFindPage, U64MOD, List.getD]
  · simp [lbPagedArenaAlloc, lbPagedArenaFindPage, U64MOD, growCapacity_64_32]

/-- C5 (amended): with default page capacity 64, the first two `alloc(32)`
calls are served from the first page (offsets 0 and 32, page length 64); the
third `alloc(32)` — which would overflow 64 — creates a new page of capacity
64 ≥ 32 linked at the tail and is served from it; the fourth `alloc(32)` is
served from that second page, and the first page's length remains 64. -/
theorem c5_arena_growth_amended :
    (lbPagedArenaNew 64).map (fun a =>
        let s1 := lbPagedArenaAlloc a 32
        let s2 := lbPagedArenaAlloc s1.2 32
        let s3 := lbPagedArenaAlloc s2.2 32
        let s4 := lbPagedArenaAlloc s3.2 32
        (s1.1, s2.1, s3.1, s4.1,
         s3.2.pages.map (fun pg => (pg.capacity, pg.length)),
         s4.2.pages.map (fun pg => (pg.capacity, pg.length)))) =
      some ((0, 0), (0, 32), (1, 0), (1, 32),
            [(64, 64), (64, 32)], [(64, 64), (64, 64)]) := by
  simp only [lbPagedArenaNew]
  norm_num
  simp [lbPagedArenaAlloc, lbPagedArenaFindPage, U64MOD, growCapacity_64_32,
    List.getD]

/-!
Quantization facts for the normalized accessors.
-/

theorem quantUnsigned_cast (v : ℚ) (max : Nat) (hv0 : 0 ≤ v) :
    ((quantUnsigned v max : Nat) : ℚ) = ((⌊v * max + 1 / 2⌋ : ℤ) : ℚ) := by
  unfold quantUnsigned ctrunc
  have hq : (0 : ℚ) ≤ v * max + 1 / 2 := by positivity
  rw [if_pos hq]
  have h0 : 0 ≤ ⌊v * (max : ℚ) + 1 / 2⌋ := Int.floor_nonneg.mpr hq
  exact_mod_cast congrArg (Int.cast : ℤ → ℚ) (Int.toNat_of_nonneg h0)

theorem quantUnsigned_le_max (v : ℚ) (max : Nat) (hv0 : 0 ≤ v) (hv1 : v ≤ 1) :
    quantUnsigned v max ≤ max := by
  unfold quantUnsigned ctrunc
  have hq : (0 : ℚ) ≤ v * max + 1 / 2 := by positivity
  rw [if_pos hq, Int.toNat_le, Int.floor_le_iff]
  have hvm : v * (max : ℚ) ≤ max :=
    mul_le_of_le_one_left (by positivity) hv1
  push_cast
  linarith

theorem quantUnsigned_err (v : ℚ) (max : Nat) (hv0 : 0 ≤ v) (_hv1 : v ≤ 1)
    (hm : 1 ≤ max) :
    |((quantUnsigned v max : Nat) : ℚ) / max - v| ≤ 1 / (2 * max) := by
  have hmq : (0 : ℚ) < max := by exact_mod_cast Nat.lt_of_lt_of_le Nat.zero_lt_one hm
  rw [quantUnsigned_cast v max hv0]
  have h1 : ((⌊v * (max : ℚ) + 1 / 2⌋ : ℤ) : ℚ) ≤ v * max + 1 / 2 :=
    Int.floor_le _
  have h2 : v * (max : ℚ) + 1 / 2 - 1 < ((⌊v * (max : ℚ) + 1 / 2⌋ : ℤ) : ℚ) :=
    Int.sub_one_lt_floor _
  have hdiff : ((⌊v * (max : ℚ) + 1 / 2⌋ : ℤ) : ℚ) / max - v =
      (((⌊v * (max : ℚ) + 1 / 2⌋ : ℤ) : ℚ) - v * max) / max := by
    field_simp
    ring
  rw [hdiff, abs_div, abs_of_pos hmq,
    show (1 : ℚ) / (2 * (max : ℚ)) = 1 / 2 / (max : ℚ) from
      (div_div (1 : ℚ) 2 (max : ℚ)).symm]
  gcongr
  rw [abs_le]
  constructor <;> linarith

theorem lbWriteNUGen_ok (d : List Nat) (L p max size : Nat) (v : ℚ)
    (hp : p + 1 ≤ L) (hU : L < U64MOD) (hv0 : 0 ≤ v) (hv1 : v ≤ 1) :
    lbWriteNUGen (.buffer ⟨some d, L, p⟩) v max size =
      (0, .buffer ⟨some (bufferWriteBytes d p (natToLE size (quantUnsigned v max))),
          L, (p + size) % U64MOD⟩) := by
  have hc : lbWriterCheckSafety (some (.buffer ⟨some d, L, p⟩)) false 1 = 0 := by
    rw [writerCheck_buffer_eq_zero]
    refine ⟨?_, by simp, rfl⟩
    rw [Nat.mod_eq_of_lt (lt_of_le_of_lt hp hU)]
    exact hp
  have hdom : ¬(v < 0 ∨ v > 1) := by
    push_neg
    exact ⟨hv0, hv1⟩
  unfold lbWriteNUGen
  simp [hc, hdom, lbWriteUnchecked, natToLE_length]

/-- C7 (amended): for every unsigned width (generic `max = 2^w - 1`,
`size = w/8` with `max < 256^size`), writing `v ∈ [0,1]` with the normalized
write accessor and reading the result back with the matching normalized read
accessor yields a value within `0.5 / max` of `v` — for the quantization
algorithm evaluated in exact arithmetic. The C accessors evaluate the formula
in IEEE floating point, where this bound fails at width 64 (see
`c7_counterexample`); the claim's bound holds for the idealized algorithm
only. -/
theorem c7_normalized_roundtrip_error_bound (d : List Nat) (L p max size : Nat)
    (v : ℚ) (hL : d.length = L) (hU : L < U64MOD) (hp : p + size ≤ L)
    (hs : 1 ≤ size) (hm : 1 ≤ max) (hms : max < 256 ^ size)
    (hv0 : 0 ≤ v) (hv1 : v ≤ 1) :
    (lbWriteNUGen (.buffer ⟨some d, L, p⟩) v max size).1 = 0 ∧
    ∃ d', (lbWriteNUGen (.buffer ⟨some d, L, p⟩) v max size).2 =
        .buffer ⟨some d', L, p + size⟩ ∧
      (lbReadNUGen (.buffer ⟨some d', L, p⟩) max size).1 = 0 ∧
      (lbReadNUGen (.buffer ⟨some d', L, p⟩) max size).2.1 =
        ((quantUnsigned v max : Nat) : ℚ) / max ∧
      |(lbReadNUGen (.buffer ⟨some d', L, p⟩) max size).2.1 - v| ≤
        1 / (2 * max) := by
  have hw := lbWriteNUGen_ok d L p max size v (by omega) hU hv0 hv1
  have hmod : (p + size) % U64MOD = p + size :=
    Nat.mod_eq_of_lt (lt_of_le_of_lt hp hU)
  set k := quantUnsigned v max with hk
  set d' := bufferWriteBytes d p (natToLE size k) with hd'
  have hlen : d'.length = L := by
    rw [hd', bufferWriteBytes_length d _ p (by rw [natToLE_length]; omega), hL]
  have hread : lbRead (.buffer ⟨some d', L, p⟩) false size =
      ⟨0, natToLE size k, .buffer ⟨some d', L, p + size⟩, []⟩ := by
    rw [lbRead_buffer_ok_shape d' L p size hlen hU hp]
    have hrb := bufferWriteBytes_readback d (natToLE size k) p
      (by rw [natToLE_length]; omega)
    rw [natToLE_length] at hrb
    rw [hd', hrb]
  have hkmax : k ≤ max := quantUnsigned_le_max v max hv0 hv1
  have hdec : leToNat (natToLE size k) = k := by
    rw [leToNat_natToLE, Nat.mod_eq_of_lt (lt_of_le_of_lt hkmax hms)]
  refine ⟨?_, d', ?_, ?_, ?_, ?_⟩
  · rw [hw]
  · rw [hw, hmod]
  · unfold lbReadNUGen
    rw [hread]
  · unfold lbReadNUGen
    rw [hread]
    simp [hdec]
  · unfold lbReadNUGen
    rw [hread]
    simp only [hdec]
    exact quantUnsigned_err v max hv0 hv1 hm

theorem quantUnsigned_half_255 : quantUnsigned (1 / 2) 255 = 128 := by
  have h : (1 / 2 : ℚ) * ((255 : Nat) : ℚ) + 1 / 2 = ((128 : ℤ) : ℚ) := by
    push_cast
    norm_num
  unfold quantUnsigned ctrunc
  rw [h, if_pos (by positivity), Int.floor_intCast]
  rfl

theorem lbWriteNU8_half_byte :
    lbWriteNU8 (.buffer ⟨some [0], 1, 0⟩) (1 / 2) =
      (0, .buffer ⟨some [128], 1, 1⟩) := by
  unfold lbWriteNU8
  rw [lbWriteNUGen_ok [0] 1 0 255 1 (1 / 2) (by decide) (by decide)
      (by norm_num) (by norm_num),
    quantUnsigned_half_255]
  decide

theorem lbReadNU8_128_byte :
    (lbReadNU8 (.buffer ⟨some [128], 1, 0⟩)).2.1 = 128 / 255 := by
  unfold lbReadNU8 lbReadNUGen
  rw [lbRead_buffer_ok_shape [128] 1 0 1 (by decide) (by decide) (by decide)]
  norm_num [leToNat]

/-- C7 witness: width 8, `v = 1/2` — the encoded byte is 128
(`trunc(0.5 * 255 + 0.5) = 128`), the decoded value is `128/255`, the error is
below `0.002` and within the theorem's bound `1 / (2 * 255)`. -/
theorem c7_witness :
    (([0] : List Nat).length = 1 ∧ 1 < U64MOD ∧ 0 + 1 ≤ 1 ∧ 1 ≤ 1 ∧
     1 ≤ 255 ∧ 255 < 256 ^ 1 ∧ (0 : ℚ) ≤ 1 / 2 ∧ (1 / 2 : ℚ) ≤ 1) ∧
    quantUnsigned (1 / 2) 255 = 128 ∧
    lbWriteNU8 (.buffer ⟨some [0], 1, 0⟩) (1 / 2) =
      (0, .buffer ⟨some [128], 1, 1⟩) ∧
    (lbReadNU8 (.buffer ⟨some [128], 1, 0⟩)).2.1 = 128 / 255 ∧
    |(128 / 255 : ℚ) - 1 / 2| < 2 / 1000 ∧
    (∃ d', (lbWriteNUGen (.buffer ⟨some [0], 1, 0⟩) (1 / 2) 255 1).2 =
        .buffer ⟨some d', 1, 0 + 1⟩ ∧
      (lbReadNUGen (.buffer ⟨some d', 1, 0⟩) 255 1).1 = 0 ∧
      (lbReadNUGen (.buffer ⟨some d', 1, 0⟩) 255 1).2.1 =
        ((quantUnsigned (1 / 2) 255 : Nat) : ℚ) / 255 ∧
      |(lbReadNUGen (.buffer ⟨some d', 1, 0⟩) 255 1).2.1 - 1 / 2| ≤
        1 / (2 * 255)) :=
  ⟨⟨by decide, by decide, by decide, by decide, by decide, by decide,
    by norm_num, by norm_num⟩,
   quantUnsigned_half_255, lbWriteNU8_half_byte, lbReadNU8_128_byte,
   by rw [show (128 / 255 : ℚ) - 1 / 2 = 1 / 510 by norm_num,
        abs_of_pos (by norm_num)]
      norm_num,
   (c7_normalized_roundtrip_error_bound [0] 1 0 255 1 (1 / 2)
      (by decide) (by decide) (by decide) (by decide) (by decide) (by decide)
      (by norm_num) (by norm_num)).2⟩

theorem lor_eight_ne_zero (x : Nat) : x ||| 8 ≠ 0 := by
  intro h
  have h3 := congrArg (fun y => y.testBit 3) h
  simp only [Nat.testBit_lor] at h3
  rw [show Nat.testBit 8 3 = true from by decide,
    show Nat.testBit 0 3 = false from by decide] at h3
  simp at h3

theorem lor_eight_and_eight_ne_zero (x : Nat) : (x ||| 8) &&& 8 ≠ 0 := by
  intro h
  have h3 := congrArg (fun y => y.testBit 3) h
  simp only [Nat.testBit_land, Nat.testBit_lor] at h3
  rw [show Nat.testBit 8 3 = true from by decide,
    show Nat.testBit 0 3 = false from by decide] at h3
  simp at h3

/-- C6: every checked normalized write accessor (generic unsigned and signed
bodies shared by all widths): a value outside the declared domain (`[0,1]`
resp. `[-1,1]`) yields an error with the `LB_WRITER_ERROR_INVALID_VALUE` flag
set and leaves the writer (buffer contents and position) untouched; a value
inside the domain for which the safety check of the checked form passes is
written through the raw write as the quantized bytes. -/
theorem c6_normalized_domain_check :
    (∀ (w : LB_Writer) (v : ℚ) (max size : Nat), (v < 0 ∨ v > 1) →
        (lbWriteNUGen w v max size).1 &&& LB_WRITER_ERROR_INVALID_VALUE ≠ 0 ∧
        (lbWriteNUGen w v max size).2 = w) ∧
    (∀ (w : LB_Writer) (v : ℚ) (maxI size : Nat), (v < -1 ∨ v > 1) →
        (lbWriteNIGen w v maxI size).1 &&& LB_WRITER_ERROR_INVALID_VALUE ≠ 0 ∧
        (lbWriteNIGen w v maxI size).2 = w) ∧
    (∀ (w : LB_Writer) (v : ℚ) (max size : Nat),
        lbWriterCheckSafety (some w) false 1 = 0 → ¬(v < 0 ∨ v > 1) →
        lbWriteNUGen w v max size =
          ((lbWriteUnchecked w (natToLE size (quantUnsigned v max))).error,
           (lbWriteUnchecked w (natToLE size (quantUnsigned v max))).writer)) ∧
    (∀ (w : LB_Writer) (v : ℚ) (maxI size : Nat),
        lbWriterCheckSafety (some w) false 1 = 0 → ¬(v < -1 ∨ v > 1) →
        lbWriteNIGen w v maxI size =
          ((lbWriteUnchecked w (natToLE size
              ((quantSigned v maxI % ((2 : Int) ^ (8 * size))).toNat))).error,
           (lbWriteUnchecked w (natToLE size
              ((quantSigned v maxI % ((2 : Int) ^ (8 * size))).toNat))).writer)) := by
  refine ⟨fun w v max size hdom => ?_, fun w v maxI size hdom => ?_,
    fun w v max size hchk hdom => ?_, fun w v maxI size hchk hdom => ?_⟩
  · simp only [lbWriteNUGen, LB_WRITER_ERROR_INVALID_VALUE]
    rw [if_pos hdom, if_pos (lor_eight_ne_zero _)]
    exact ⟨lor_eight_and_eight_ne_zero _, rfl⟩
  · simp only [lbWriteNIGen, LB_WRITER_ERROR_INVALID_VALUE]
    rw [if_pos hdom, if_pos (lor_eight_ne_zero _)]
    exact ⟨lor_eight_and_eight_ne_zero _, rfl⟩
  · simp only [lbWriteNUGen]
    rw [if_neg hdom, hchk]
    simp
  · simp only [lbWriteNIGen]
    rw [if_neg hdom, hchk]
    simp

/-- C6 witness: on a 1-byte buffer writer, `lbWriteNU8`-shaped call with
`v = 3/2` fails with the InvalidValue flag and leaves the writer unchanged,
while `v = 1/2` (domain and safety checks pass) performs the raw write of the
quantized byte. -/
theorem c6_witness :
    (((3 / 2 : ℚ) < 0 ∨ (3 / 2 : ℚ) > 1) ∧
     lbWriterCheckSafety (some (.buffer ⟨some [0], 1, 0⟩)) false 1 = 0 ∧
     ¬((1 / 2 : ℚ) < 0 ∨ (1 / 2 : ℚ) > 1)) ∧
    ((lbWriteNUGen (.buffer ⟨some [0], 1, 0⟩) (3 / 2) 255 1).1 &&&
        LB_WRITER_ERROR_INVALID_VALUE ≠ 0 ∧
     (lbWriteNUGen (.buffer ⟨some [0], 1, 0⟩) (3 / 2) 255 1).2 =
       .buffer ⟨some [0], 1, 0⟩) ∧
    lbWriteNUGen (.buffer ⟨some [0], 1, 0⟩) (1 / 2) 255 1 =
      ((lbWriteUnchecked (.buffer ⟨some [0], 1, 0⟩)
          (natToLE 1 (quantUnsigned (1 / 2) 255))).error,
       (lbWriteUnchecked (.buffer ⟨some [0], 1, 0⟩)
          (natToLE 1 (quantUnsigned (1 / 2) 255))).writer) :=
  ⟨⟨Or.inr (by norm_num), by decide,
    by push_neg; exact ⟨by norm_num, by norm_num⟩⟩,
   c6_normalized_domain_check.1 _ _ _ _ (Or.inr (by norm_num)),
   c6_normalized_domain_check.2.2.1 _ _ _ _ (by decide)
     (by push_neg; exact ⟨by norm_num, by norm_num⟩)⟩

theorem quantUnsigned_eval (v : ℚ) (max k : Nat)
    (h1 : ((k : ℤ) : ℚ) ≤ v * max + 1 / 2)
    (h2 : v * max + 1 / 2 < ((k : ℤ) : ℚ) + 1) :
    quantUnsigned v max = k := by
  have h0 : (0 : ℚ) ≤ v * max + 1 / 2 := le_trans (by positivity) h1
  unfold quantUnsigned ctrunc
  rw [if_pos h0, show ⌊v * (max : ℚ) + 1 / 2⌋ = (k : ℤ) from
    Int.floor_eq_iff.mpr ⟨h1, h2⟩]
  simp

theorem quantUnsigned_half_65535 : quantUnsigned (1 / 2) 65535 = 32768 :=
  quantUnsigned_eval (1 / 2) 65535 32768 (by push_cast; norm_num)
    (by push_cast; norm_num)

theorem quantUnsigned_pal_65535 : quantUnsigned (257 / 65535) 65535 = 257 :=
  quantUnsigned_eval (257 / 65535) 65535 257 (by push_cast; norm_num)
    (by push_cast; norm_num)

theorem lbWriteNU16BE_half :
    lbWriteNU16BE (.buffer ⟨some [0, 0], 2, 0⟩) (1 / 2) =
      (0, .buffer ⟨some [0, 128], 2, 2⟩) := by
  unfold lbWriteNU16BE lbWriteNU16
  rw [lbWriteNUGen_ok [0, 0] 2 0 65535 2 (1 / 2) (by decide) (by decide)
      (by norm_num) (by norm_num), quantUnsigned_half_65535]
  decide

theorem lbWriteNU16BE_pal :
    lbWriteNU16BE (.buffer ⟨some [0, 0], 2, 0⟩) (257 / 65535) =
      (0, .buffer ⟨some [1, 1], 2, 2⟩) := by
  unfold lbWriteNU16BE lbWriteNU16
  rw [lbWriteNUGen_ok [0, 0] 2 0 65535 2 (257 / 65535) (by decide) (by decide)
      (by norm_num) (by norm_num), quantUnsigned_pal_65535]
  decide

theorem lbReadNU16BE_half_val :
    (lbReadNU16BE (.buffer ⟨some [0, 128], 2, 0⟩)).2.1 = 128 / 65535 := by
  unfold lbReadNU16BE lbReadNUGenBE
  rw [lbReadReversed_buffer_ok_shape [0, 128] 2 0 2 (by decide) (by decide)
      (by decide)]
  norm_num [leToNat]

theorem lbReadNU16BE_pal_val :
    (lbReadNU16BE (.buffer ⟨some [1, 1], 2, 0⟩)).2.1 = 257 / 65535 := by
  unfold lbReadNU16BE lbReadNUGenBE
  rw [lbReadReversed_buffer_ok_shape [1, 1] 2 0 2 (by decide) (by decide)
      (by decide)]
  norm_num [leToNat]

theorem lbReadNU16_native_val :
    (lbReadNU16 (.buffer ⟨some [0, 128], 2, 0⟩)).2.1 = 32768 / 65535 := by
  unfold lbReadNU16
  unfold lbReadNUGen
  rw [lbRead_buffer_ok_shape [0, 128] 2 0 2 (by decide) (by decide) (by decide)]
  norm_num [leToNat]

/-- C10 counterexample: the claim's consequence does not hold for every
`v ∈ (0,1)`: for `v = 257/65535` the quantized code `257 = 0x0101` is invariant
under byte reversal, so the BE normalized write (which ignores byte order)
followed by the BE normalized read (which reverses) still returns exactly `v`,
well within the quantization error bound. -/
theorem c10_counterexample :
    ((0 : ℚ) < 257 / 65535 ∧ (257 / 65535 : ℚ) < 1) ∧
    lbWriteNU16BE (.buffer ⟨some [0, 0], 2, 0⟩) (257 / 65535) =
      (0, .buffer ⟨some [1, 1], 2, 2⟩) ∧
    (lbReadNU16BE (.buffer ⟨some [1, 1], 2, 0⟩)).2.1 = 257 / 65535 ∧
    |(lbReadNU16BE (.buffer ⟨some [1, 1], 2, 0⟩)).2.1 - 257 / 65535| ≤
      1 / (2 * 65535) := by
  refine ⟨⟨by norm_num, by norm_num⟩, lbWriteNU16BE_pal, lbReadNU16BE_pal_val, ?_⟩
  rw [lbReadNU16BE_pal_val]
  norm_num

/-- C10 (amended): the multi-byte explicit-endianness normalized write
accessors delegate to the native-order normalized writer (the byte order is
ignored), while the explicit-endianness normalized read accessors apply the
requested byte order; consequently, on a host whose native order differs from
the selected one, the BE write + BE read normalized round trip generally
breaks the quantization bound — e.g. `v = 1/2` at width 16 writes native bytes
`[0,128]` and reads back `128/65535` — except for values whose quantized code
is invariant under byte reversal (such as `257/65535`), which still round-trip
exactly. -/
theorem c10_normalized_endianness_asymmetry :
    (∀ (w : LB_Writer) (v : ℚ),
        lbWriteNU16LE w v = lbWriteNU16 w v ∧
        lbWriteNU16BE w v = lbWriteNU16 w v ∧
        lbWriteNU32LE w v = lbWriteNU32 w v ∧
        lbWriteNU32BE w v = lbWriteNU32 w v ∧
        lbWriteNU64LE w v = lbWriteNU64 w v ∧
        lbWriteNU64BE w v = lbWriteNU64 w v ∧
        lbWriteNI16LE w v = lbWriteNI16 w v ∧
        lbWriteNI16BE w v = lbWriteNI16 w v ∧
        lbWriteNI32LE w v = lbWriteNI32 w v ∧
        lbWriteNI32BE w v = lbWriteNI32 w v ∧
        lbWriteNI64LE w v = lbWriteNI64 w v ∧
        lbWriteNI64BE w v = lbWriteNI64 w v) ∧
    (lbReadNU16BE (.buffer ⟨some [0, 128], 2, 0⟩)).2.1 ≠
      (lbReadNU16 (.buffer ⟨some [0, 128], 2, 0⟩)).2.1 ∧
    lbWriteNU16BE (.buffer ⟨some [0, 0], 2, 0⟩) (1 / 2) =
      (0, .buffer ⟨some [0, 128], 2, 2⟩) ∧
    1 / (2 * 65535) <
      |(lbReadNU16BE (.buffer ⟨some [0, 128], 2, 0⟩)).2.1 - 1 / 2| := by
  refine ⟨fun w v =>
    ⟨rfl, rfl, rfl, rfl, rfl, rfl, rfl, rfl, rfl, rfl, rfl, rfl⟩, ?_, lbWriteNU16BE_half, ?_⟩
  · rw [lbReadNU16BE_half_val, lbReadNU16_native_val]
    norm_num
  · rw [lbReadNU16BE_half_val,
      show (128 / 65535 : ℚ) - 1 / 2 = -(65279 / 131070) by norm_num,
      abs_neg, abs_of_pos (by norm_num)]
    norm_num

/-!
IEEE binary64 semantics for the width-64 normalized path. `lbWriteNU64`
computes `(uint64_t)(value * ((double)UINT64_MAX) + 0.5)` and `lbReadNU64`
computes `(double)k / ((double)UINT64_MAX)` in double precision: each
operation's real result is rounded to 53 significand bits, round-to-nearest
with ties to the even significand. The values reached below are far inside
binary64's exponent range, so the exponent bounds of the format are not
modelled. Rounding is specified relationally (nearest representable, ties to
the even canonical significand) — the textbook definition of the IEEE
rounding the hardware performs.
-/

/-- A rational representable as an IEEE binary64: an integer significand of
magnitude at most `2^53` times an integer power of two (finite doubles,
exponent range ignored — harmless at the magnitudes used here). -/
def Rep53 (r : ℚ) : Prop :=
  ∃ m e : ℤ, m.natAbs ≤ 2 ^ 53 ∧ r = (m : ℚ) * 2 ^ e

/-- `r`'s canonical (normalized, `2^52 ≤ |m| < 2^53`) significand is even —
the side IEEE round-to-nearest picks in a tie. -/
def EvenSig53 (r : ℚ) : Prop :=
  ∃ m e : ℤ, 2 ^ 52 ≤ m.natAbs ∧ m.natAbs < 2 ^ 53 ∧ m % 2 = 0 ∧
    r = (m : ℚ) * 2 ^ e

/-- IEEE round-to-nearest, ties-to-even, at 53 significand bits: `r` is the
binary64 rounding of the exact value `q`. -/
def RoundNE53 (q r : ℚ) : Prop :=
  Rep53 r ∧ (∀ s : ℚ, Rep53 s → |r - q| ≤ |s - q|) ∧
  ((∃ s : ℚ, Rep53 s ∧ s ≠ r ∧ |s - q| = |r - q|) → EvenSig53 r)

/-- IEEE-double evaluation of the `lbWriteNU64` quantization
`(uint64_t)(value * ((double)UINT64_MAX) + 0.5)`: `mx` is `2^64 - 1` rounded
to a double, `p` the rounded product, `s` the rounded sum; the final C cast
truncates toward zero. -/
def NU64QuantIEEE (v : ℚ) (k : Nat) : Prop :=
  ∃ mx p s : ℚ, RoundNE53 ((2 : ℚ) ^ 64 - 1) mx ∧ RoundNE53 (v * mx) p ∧
    RoundNE53 (p + 1 / 2) s ∧ k = (ctrunc s).toNat

/-- IEEE-double evaluation of the `lbReadNU64` decode
`(double)k / ((double)UINT64_MAX)`: `mx` is `2^64 - 1` rounded to a double,
`kd` the rounded integer, and the quotient is rounded. -/
def NU64ReadIEEE (k : Nat) (out : ℚ) : Prop :=
  ∃ mx kd : ℚ, RoundNE53 ((2 : ℚ) ^ 64 - 1) mx ∧ RoundNE53 ((k : ℚ)) kd ∧
    RoundNE53 (kd / mx) out

theorem rep53_mk (m : ℤ) (n : Nat) (hm : m.natAbs ≤ 2 ^ 53) (r : ℚ)
    (hr : r = (m : ℚ) * 2 ^ n) : Rep53 r :=
  ⟨m, (n : ℤ), hm, by rw [hr, zpow_natCast]⟩

theorem rep53_mkdiv (m : ℤ) (n : Nat) (hm : m.natAbs ≤ 2 ^ 53) (r : ℚ)
    (hr : r = (m : ℚ) / 2 ^ n) : Rep53 r :=
  ⟨m, -(n : ℤ), hm, by rw [hr, zpow_neg, zpow_natCast, div_eq_mul_inv]⟩

theorem evenSig53_mk (m : ℤ) (n : Nat) (h1 : 2 ^ 52 ≤ m.natAbs)
    (h2 : m.natAbs < 2 ^ 53) (h3 : m % 2 = 0) (r : ℚ)
    (hr : r = (m : ℚ) * 2 ^ n) : EvenSig53 r :=
  ⟨m, (n : ℤ), h1, h2, h3, by rw [hr, zpow_natCast]⟩

theorem int_cast_dist_ge_one (z c : ℤ) (h : z ≠ c) :
    (1 : ℚ) ≤ |(z : ℚ) - (c : ℚ)| := by
  have h1 : (1 : ℤ) ≤ |z - c| := by
    rcases (sub_ne_zero.mpr h).lt_or_lt with hlt | hgt
    · rw [abs_of_neg hlt]; omega
    · rw [abs_of_pos hgt]; omega
  exact_mod_cast h1

/-- Granularity of binary64: a representable value is an integer multiple of
`2^t` unless its magnitude is at most `2^(52+t)`. -/
theorem rep53_cases (s : ℚ) (t : Nat) (h : Rep53 s) :
    (∃ j : ℤ, s = (j : ℚ) * 2 ^ t) ∨ |s| ≤ 2 ^ (52 + t) := by
  obtain ⟨m, e, hm, rfl⟩ := h
  rcases le_or_lt (t : ℤ) e with he | he
  · left
    refine ⟨m * 2 ^ (e - (t : ℤ)).toNat, ?_⟩
    have he' : ((e - (t : ℤ)).toNat : ℤ) = e - t := Int.toNat_of_nonneg (by omega)
    push_cast
    rw [mul_assoc, ← zpow_natCast (2 : ℚ) ((e - (t : ℤ)).toNat),
      ← zpow_natCast (2 : ℚ) t, ← zpow_add₀ (by norm_num : (2 : ℚ) ≠ 0),
      show (((e - (t : ℤ)).toNat : ℤ) + (t : ℤ)) = e by omega]
  · right
    have hz : |m| ≤ (2 : ℤ) ^ 53 := by
      rw [Int.abs_eq_natAbs]
      exact_mod_cast hm
    have habs : |(m : ℚ)| ≤ 2 ^ 53 := by
      calc |(m : ℚ)| = ((|m| : ℤ) : ℚ) := by rw [← Int.cast_abs]
        _ ≤ (((2 : ℤ) ^ 53 : ℤ) : ℚ) := by exact_mod_cast hz
        _ = 2 ^ 53 := by push_cast; norm_num
    have hpow : (2 : ℚ) ^ e ≤ 2 ^ ((t : ℤ) - 1) :=
      zpow_le_zpow_right₀ (by norm_num) (by omega)
    have hpos : (0 : ℚ) < 2 ^ e := zpow_pos (by norm_num) e
    calc |(m : ℚ) * 2 ^ e| = |(m : ℚ)| * (2 : ℚ) ^ e := by
          rw [abs_mul, abs_of_pos hpos]
      _ ≤ 2 ^ 53 * 2 ^ ((t : ℤ) - 1) :=
          mul_le_mul habs hpow (le_of_lt hpos) (by norm_num)
      _ = 2 ^ (52 + t) := by
          rw [← zpow_natCast (2 : ℚ) 53, ← zpow_add₀ (by norm_num : (2 : ℚ) ≠ 0),
            ← zpow_natCast (2 : ℚ) (52 + t),
            show (((53 : ℕ) : ℤ) + ((t : ℤ) - 1)) = ((52 + t : ℕ) : ℤ) by
              push_cast
              omega]

theorem roundNE53_exact (q r : ℚ) (h : RoundNE53 q r) (hq : Rep53 q) : r = q := by
  obtain ⟨-, hmin, -⟩ := h
  have h0 := hmin q hq
  simp only [sub_self, abs_zero, abs_nonpos_iff, sub_eq_zero] at h0
  exact h0

theorem roundNE53_self (q : ℚ) (hq : Rep53 q) : RoundNE53 q q := by
  refine ⟨hq, fun s _ => by simp, fun ⟨s, _, hne, heq⟩ => ?_⟩
  exfalso
  apply hne
  simp only [sub_self, abs_zero, abs_eq_zero, sub_eq_zero] at heq
  exact heq

/-- No binary64 value lies within distance less than 1 of `2^64 - 1` (the
neighbours are `2^64 - 2^11` and `2^64`). -/
theorem roundNE53_umax_dist (s : ℚ) (hs : Rep53 s) :
    1 ≤ |s - ((2 : ℚ) ^ 64 - 1)| := by
  rcases rep53_cases s 11 hs with ⟨j, rfl⟩ | hsmall
  · have hj : (2048 * j : ℤ) ≠ 2 ^ 64 - 1 := by omega
    have h1 := int_cast_dist_ge_one (2048 * j) (2 ^ 64 - 1) hj
    calc (1 : ℚ) ≤ |((2048 * j : ℤ) : ℚ) - ((2 ^ 64 - 1 : ℤ) : ℚ)| := h1
      _ = |(j : ℚ) * 2 ^ 11 - ((2 : ℚ) ^ 64 - 1)| := by
          congr 1
          push_cast
          ring
  · have hle : s ≤ 2 ^ 63 := by
      calc s ≤ |s| := le_abs_self s
        _ ≤ 2 ^ (52 + 11) := hsmall
        _ = 2 ^ 63 := by norm_num
    rw [abs_sub_comm]
    calc (1 : ℚ) ≤ ((2 : ℚ) ^ 64 - 1) - 2 ^ 63 := by norm_num
      _ ≤ ((2 : ℚ) ^ 64 - 1) - s := by linarith
      _ ≤ |((2 : ℚ) ^ 64 - 1) - s| := le_abs_self _

/-- `(double)UINT64_MAX`: `2^64 - 1` rounds to `2^64` and to nothing else. -/
theorem roundNE53_umax (r : ℚ) (h : RoundNE53 ((2 : ℚ) ^ 64 - 1) r) :
    r = 2 ^ 64 := by
  obtain ⟨hrep, hmin, -⟩ := h
  have h64 : Rep53 ((2 : ℚ) ^ 64) :=
    rep53_mk (2 ^ 53) 11 (by decide) _ (by push_cast; norm_num)
  have hd := hmin _ h64
  rw [show |(2 : ℚ) ^ 64 - ((2 : ℚ) ^ 64 - 1)| = 1 by norm_num] at hd
  have heq1 : |r - ((2 : ℚ) ^ 64 - 1)| = 1 :=
    le_antisymm hd (roundNE53_umax_dist r hrep)
  rcases (abs_eq (by norm_num : (0 : ℚ) ≤ 1)).mp heq1 with h1 | h1
  · linarith
  · exfalso
    have hr2 : r = 2 ^ 64 - 2 := by linarith
    rcases rep53_cases r 11 hrep with ⟨j, hj⟩ | hsmall
    · rw [hj] at hr2
      have hz : (j * 2 ^ 11 : ℤ) = 2 ^ 64 - 2 := by exact_mod_cast hr2
      omega
    · rw [hr2] at hsmall
      rw [show |(2 : ℚ) ^ 64 - 2| = 2 ^ 64 - 2 from abs_of_pos (by norm_num)]
        at hsmall
      norm_num at hsmall

theorem roundNE53_umax_holds : RoundNE53 ((2 : ℚ) ^ 64 - 1) (2 ^ 64) := by
  refine ⟨rep53_mk (2 ^ 53) 11 (by decide) _ (by push_cast; norm_num),
    fun s hs => ?_,
    fun _ => evenSig53_mk (2 ^ 52) 12 (by decide) (by decide) (by decide) _
      (by push_cast; norm_num)⟩
  rw [show |(2 : ℚ) ^ 64 - ((2 : ℚ) ^ 64 - 1)| = 1 by norm_num]
  exact roundNE53_umax_dist s hs

/-- Every binary64 value is at distance at least `1/2` from `2^52 + 3/2` (the
ulp in `[2^52, 2^53)` is 1, so `2^52 + 3/2` is a tie midpoint). -/
theorem roundNE53_mid_dist (s : ℚ) (hs : Rep53 s) :
    1 / 2 ≤ |s - ((2 : ℚ) ^ 52 + 3 / 2)| := by
  rcases rep53_cases s 0 hs with ⟨j, hj⟩ | hsmall
  · have hj' : s = (j : ℚ) := by simpa using hj
    have hne : (2 * j : ℤ) ≠ 2 ^ 53 + 3 := by omega
    have h1 := int_cast_dist_ge_one (2 * j) (2 ^ 53 + 3) hne
    rw [hj']
    have h2 : |((2 * j : ℤ) : ℚ) - ((2 ^ 53 + 3 : ℤ) : ℚ)| =
        2 * |(j : ℚ) - ((2 : ℚ) ^ 52 + 3 / 2)| := by
      rw [show ((2 * j : ℤ) : ℚ) - ((2 ^ 53 + 3 : ℤ) : ℚ) =
          2 * ((j : ℚ) - ((2 : ℚ) ^ 52 + 3 / 2)) by push_cast; ring,
        abs_mul, abs_of_pos (by norm_num : (0 : ℚ) < 2)]
    rw [h2] at h1
    linarith
  · have hle : s ≤ 2 ^ 52 := by
      calc s ≤ |s| := le_abs_self s
        _ ≤ 2 ^ (52 + 0) := hsmall
        _ = 2 ^ 52 := by norm_num
    rw [abs_sub_comm]
    calc (1 : ℚ) / 2 ≤ ((2 : ℚ) ^ 52 + 3 / 2) - 2 ^ 52 := by norm_num
      _ ≤ ((2 : ℚ) ^ 52 + 3 / 2) - s := by linarith
      _ ≤ |((2 : ℚ) ^ 52 + 3 / 2) - s| := le_abs_self _

/-- `2^52 + 1` has an odd canonical significand: it is not the even side of a
tie. -/
theorem not_evenSig53_mid : ¬ EvenSig53 ((2 : ℚ) ^ 52 + 1) := by
  rintro ⟨m, e, hlo, hhi, hev, heq⟩
  rcases le_or_lt 0 e with he | he
  · have hme : ((2 : ℚ) ^ 52 + 1) = ((m * 2 ^ e.toNat : ℤ) : ℚ) := by
      rw [heq]
      push_cast
      rw [← zpow_natCast (2 : ℚ) e.toNat, Int.toNat_of_nonneg he]
    have hz : (2 ^ 52 + 1 : ℤ) = m * 2 ^ e.toNat := by exact_mod_cast hme
    have hdvd : (2 : ℤ) ∣ m * 2 ^ e.toNat :=
      Dvd.dvd.mul_right (Int.dvd_of_emod_eq_zero hev) _
    rw [← hz] at hdvd
    omega
  · have hz : |m| ≤ (2 : ℤ) ^ 53 := by
      rw [Int.abs_eq_natAbs]
      exact_mod_cast le_of_lt hhi
    have habs : |(m : ℚ)| ≤ 2 ^ 53 := by
      calc |(m : ℚ)| = ((|m| : ℤ) : ℚ) := by rw [← Int.cast_abs]
        _ ≤ (((2 : ℤ) ^ 53 : ℤ) : ℚ) := by exact_mod_cast hz
        _ = 2 ^ 53 := by push_cast; norm_num
    have hpow : (2 : ℚ) ^ e ≤ 2 ^ (-1 : ℤ) :=
      zpow_le_zpow_right₀ (by norm_num) (by omega)
    have hpos : (0 : ℚ) < 2 ^ e := zpow_pos (by norm_num) e
    have hbound : |(m : ℚ) * 2 ^ e| ≤ 2 ^ 52 := by
      calc |(m : ℚ) * 2 ^ e| = |(m : ℚ)| * (2 : ℚ) ^ e := by
            rw [abs_mul, abs_of_pos hpos]
        _ ≤ 2 ^ 53 * 2 ^ (-1 : ℤ) :=
            mul_le_mul habs hpow (le_of_lt hpos) (by norm_num)
        _ = 2 ^ 52 := by
            rw [show ((2 : ℚ) ^ (-1 : ℤ)) = 1 / 2 by norm_num]
            norm_num
    rw [← heq] at hbound
    rw [show |(2 : ℚ) ^ 52 + 1| = 2 ^ 52 + 1 from abs_of_pos (by positivity)]
      at hbound
    norm_num at hbound

/-- `2^52 + 1.5` rounds to `2^52 + 2` and to nothing else (ties to even). -/
theorem roundNE53_mid (r : ℚ) (h : RoundNE53 ((2 : ℚ) ^ 52 + 3 / 2) r) :
    r = 2 ^ 52 + 2 := by
  obtain ⟨hrep, hmin, htie⟩ := h
  have hrep2 : Rep53 ((2 : ℚ) ^ 52 + 2) :=
    rep53_mk (2 ^ 52 + 2) 0 (by decide) _ (by push_cast; norm_num)
  have hb := hmin _ hrep2
  rw [show |(2 : ℚ) ^ 52 + 2 - ((2 : ℚ) ^ 52 + 3 / 2)| = 1 / 2 by
    rw [show (2 : ℚ) ^ 52 + 2 - ((2 : ℚ) ^ 52 + 3 / 2) = 1 / 2 by ring]
    norm_num] at hb
  have heqd : |r - ((2 : ℚ) ^ 52 + 3 / 2)| = 1 / 2 :=
    le_antisymm hb (roundNE53_mid_dist r hrep)
  rcases (abs_eq (by norm_num : (0 : ℚ) ≤ 1 / 2)).mp heqd with h1 | h1
  · linarith
  · exfalso
    have hr1 : r = (2 : ℚ) ^ 52 + 1 := by linarith
    have hever := htie ⟨(2 : ℚ) ^ 52 + 2, hrep2, by rw [hr1]; norm_num, by
      rw [heqd, show (2 : ℚ) ^ 52 + 2 - ((2 : ℚ) ^ 52 + 3 / 2) = 1 / 2 by ring]
      norm_num⟩
    rw [hr1] at hever
    exact not_evenSig53_mid hever

theorem roundNE53_mid_holds :
    RoundNE53 ((2 : ℚ) ^ 52 + 3 / 2) ((2 : ℚ) ^ 52 + 2) := by
  refine ⟨rep53_mk (2 ^ 52 + 2) 0 (by decide) _ (by push_cast; norm_num),
    fun s hs => ?_,
    fun _ => evenSig53_mk (2 ^ 52 + 2) 0 (by decide) (by decide) (by decide) _
      (by push_cast; norm_num)⟩
  rw [show |(2 : ℚ) ^ 52 + 2 - ((2 : ℚ) ^ 52 + 3 / 2)| = 1 / 2 by
    rw [show (2 : ℚ) ^ 52 + 2 - ((2 : ℚ) ^ 52 + 3 / 2) = 1 / 2 by ring]
    norm_num]
  exact roundNE53_mid_dist s hs

theorem ctrunc_pow52_add_two : (ctrunc ((2 : ℚ) ^ 52 + 2)).toNat = 2 ^ 52 + 2 := by
  rw [show ((2 : ℚ) ^ 52 + 2) = (((2 ^ 52 + 2 : ℕ) : ℤ) : ℚ) by push_cast; norm_num]
  unfold ctrunc
  rw [if_pos (by positivity), Int.floor_intCast]
  simp

theorem nu64QuantIEEE_holds :
    NU64QuantIEEE ((2 ^ 52 + 1) / 2 ^ 64) (2 ^ 52 + 2) := by
  refine ⟨2 ^ 64, (2 : ℚ) ^ 52 + 1, (2 : ℚ) ^ 52 + 2, roundNE53_umax_holds,
    ?_, ?_, ctrunc_pow52_add_two.symm⟩
  · rw [show ((2 ^ 52 + 1 : ℚ)) / 2 ^ 64 * 2 ^ 64 = (2 : ℚ) ^ 52 + 1 by
      rw [div_mul_cancel₀ _ (by norm_num : ((2 : ℚ) ^ 64) ≠ 0)]]
    exact roundNE53_self _
      (rep53_mk (2 ^ 52 + 1) 0 (by decide) _ (by push_cast; norm_num))
  · rw [show (2 : ℚ) ^ 52 + 1 + 1 / 2 = (2 : ℚ) ^ 52 + 3 / 2 by ring]
    exact roundNE53_mid_holds

theorem nu64QuantIEEE_unique (k : Nat)
    (h : NU64QuantIEEE ((2 ^ 52 + 1) / 2 ^ 64) k) : k = 2 ^ 52 + 2 := by
  obtain ⟨mx, p, s, hmx, hp, hs, hk⟩ := h
  rw [roundNE53_umax mx hmx,
    show ((2 ^ 52 + 1 : ℚ)) / 2 ^ 64 * 2 ^ 64 = (2 : ℚ) ^ 52 + 1 by
      rw [div_mul_cancel₀ _ (by norm_num : ((2 : ℚ) ^ 64) ≠ 0)]] at hp
  rw [roundNE53_exact _ _ hp
      (rep53_mk (2 ^ 52 + 1) 0 (by decide) _ (by push_cast; norm_num)),
    show (2 : ℚ) ^ 52 + 1 + 1 / 2 = (2 : ℚ) ^ 52 + 3 / 2 by ring] at hs
  rw [hk, roundNE53_mid s hs, ctrunc_pow52_add_two]

theorem nu64ReadIEEE_holds :
    NU64ReadIEEE (2 ^ 52 + 2) (((2 : ℚ) ^ 52 + 2) / 2 ^ 64) := by
  refine ⟨2 ^ 64, (2 : ℚ) ^ 52 + 2, roundNE53_umax_holds, ?_, ?_⟩
  · rw [show (((2 ^ 52 + 2 : ℕ)) : ℚ) = (2 : ℚ) ^ 52 + 2 by push_cast; norm_num]
    exact roundNE53_self _
      (rep53_mk (2 ^ 52 + 2) 0 (by decide) _ (by push_cast; norm_num))
  · exact roundNE53_self _
      (rep53_mkdiv (2 ^ 52 + 2) 64 (by decide) _ (by push_cast; norm_num))

theorem nu64ReadIEEE_unique (out : ℚ) (h : NU64ReadIEEE (2 ^ 52 + 2) out) :
    out = ((2 : ℚ) ^ 52 + 2) / 2 ^ 64 := by
  obtain ⟨mx, kd, hmx, hkd, hout⟩ := h
  rw [show (((2 ^ 52 + 2 : ℕ)) : ℚ) = (2 : ℚ) ^ 52 + 2 by push_cast; norm_num]
    at hkd
  rw [roundNE53_umax mx hmx,
    roundNE53_exact _ _ hkd
      (rep53_mk (2 ^ 52 + 2) 0 (by decide) _ (by push_cast; norm_num))] at hout
  exact roundNE53_exact _ _ hout
    (rep53_mkdiv (2 ^ 52 + 2) 64 (by decide) _ (by push_cast; norm_num))

/-- C7 counterexample: under IEEE binary64 semantics the width-64 normalized
round trip violates the claimed bound. For the representable double
`v = (2^52 + 1) / 2^64 ∈ [0,1]`, the `lbWriteNU64` quantization
`(uint64_t)(v * ((double)UINT64_MAX) + 0.5)` necessarily yields `2^52 + 2`
(`(double)UINT64_MAX` rounds to `2^64`, the product is exactly `2^52 + 1`,
and the sum `2^52 + 1.5` ties to the even `2^52 + 2`), and `lbReadNU64`
necessarily returns `(2^52 + 2) / 2^64`; the round-trip error is `2^-64`,
strictly greater than `0.5 / (2^64 - 1)`. -/
theorem c7_counterexample :
    ((0 : ℚ) ≤ (2 ^ 52 + 1) / 2 ^ 64 ∧ ((2 ^ 52 + 1 : ℚ)) / 2 ^ 64 ≤ 1 ∧
      Rep53 ((2 ^ 52 + 1) / 2 ^ 64)) ∧
    NU64QuantIEEE ((2 ^ 52 + 1) / 2 ^ 64) (2 ^ 52 + 2) ∧
    (∀ k : Nat, NU64QuantIEEE ((2 ^ 52 + 1) / 2 ^ 64) k → k = 2 ^ 52 + 2) ∧
    NU64ReadIEEE (2 ^ 52 + 2) (((2 : ℚ) ^ 52 + 2) / 2 ^ 64) ∧
    (∀ out : ℚ, NU64ReadIEEE (2 ^ 52 + 2) out →
      out = ((2 : ℚ) ^ 52 + 2) / 2 ^ 64) ∧
    1 / (2 * (2 ^ 64 - 1)) <
      |((2 : ℚ) ^ 52 + 2) / 2 ^ 64 - (2 ^ 52 + 1) / 2 ^ 64| := by
  refine ⟨⟨by positivity, by rw [div_le_one (by norm_num)]; norm_num,
      rep53_mkdiv (2 ^ 52 + 1) 64 (by decide) _ (by push_cast; norm_num)⟩,
    nu64QuantIEEE_holds, nu64QuantIEEE_unique, nu64ReadIEEE_holds,
    nu64ReadIEEE_unique, ?_⟩
  rw [show ((2 : ℚ) ^ 52 + 2) / 2 ^ 64 - ((2 : ℚ) ^ 52 + 1) / 2 ^ 64 =
      1 / 2 ^ 64 by ring, abs_of_pos (by norm_num)]
  rw [div_lt_div_iff₀ (by norm_num) (by norm_num)]
  norm_num
